import Mathlib

/-!
Verification of the MetaScope data-catalog background core: the job
lifecycle state machine and priority queue of
`backend/app/services/job_processor.py`, and the dataset profiling engine
and metadata writer of `backend/app/services/data_processor.py`.

Shallow-embedding conventions:
* Redis job hashes become an association list from numeric job ids to
  `Job` records; uuid4 freshness is modelled by a monotone counter.
* Timestamps are abstract integer instants.  A stored completion
  timestamp may also be unparsable text (`TimeField.invalid`), mirroring
  a `datetime.fromisoformat` failure inside `cleanup_old_jobs`.
* A handler is an outcome function: it either returns a Python value or
  raises with a message; that is all the dispatcher observes.
* pandas parsing calls (`pd.to_datetime`, `pd.to_numeric`) are modelled
  by concrete parsers for ISO dates and decimal numerals.
* Every write to a stored job record goes through `putJob`, which logs
  the status change it performs (old status, new status); lifecycle
  claims are stated over these logs.
-/

namespace MetaScope

/-- Job lifecycle states of the JobStatus enum. -/
inductive JobStatus where
  | pending
  | running
  | completed
  | failed
  | cancelled
deriving DecidableEq, Repr

/-- Terminal states: completed, failed, cancelled. -/
def JobStatus.isTerminal : JobStatus → Bool
  | .completed => true
  | .failed => true
  | .cancelled => true
  | _ => false

/-- Python values a handler can return, at the granularity the custom
JSON serializer of JobProcessor distinguishes. -/
inductive PyVal where
  | pyNone
  | pyBool (b : Bool)
  | pyInt (n : Int)
  | pyFloat (q : Rat)
  | pyStr (s : String)
  | npInt (n : Int)
  | npFloat (q : Rat)
  | npArray (xs : List Int)
  | pyDatetime (t : Int)
  | pyList (xs : List PyVal)
  | pyDict (entries : List (String × PyVal))
  | pyOther (tag : String)
deriving Repr

/-- Plain JSON values, the output of json.dumps. -/
inductive JVal where
  | jnull
  | jbool (b : Bool)
  | jint (n : Int)
  | jfloat (q : Rat)
  | jstr (s : String)
  | jarr (xs : List JVal)
  | jobj (entries : List (String × JVal))
deriving Repr

/-- Rendering of a datetime instant, as datetime.isoformat. -/
def isoformat (t : Int) : String :=
  "ts:" ++ toString t

mutual

/-- json.dumps with the default hook JobProcessor._json_serializer:
native JSON types pass through, numpy integers and floats unwrap,
ndarrays become lists, datetimes become isoformat strings, anything
else raises TypeError (modelled as none). -/
def jsonSerialize : PyVal → Option JVal
  | .pyNone => some .jnull
  | .pyBool b => some (.jbool b)
  | .pyInt n => some (.jint n)
  | .pyFloat q => some (.jfloat q)
  | .pyStr s => some (.jstr s)
  | .npInt n => some (.jint n)
  | .npFloat q => some (.jfloat q)
  | .npArray xs => some (.jarr (xs.map JVal.jint))
  | .pyDatetime t => some (.jstr (isoformat t))
  | .pyList xs => (jsonSerializeList xs).map JVal.jarr
  | .pyDict kvs => (jsonSerializeDict kvs).map JVal.jobj
  | .pyOther _ => none

/-- Serialization of the elements of a Python list. -/
def jsonSerializeList : List PyVal → Option (List JVal)
  | [] => some []
  | x :: xs =>
    match jsonSerialize x, jsonSerializeList xs with
    | some v, some vs => some (v :: vs)
    | _, _ => none

/-- Serialization of the entries of a Python dict. -/
def jsonSerializeDict : List (String × PyVal) → Option (List (String × JVal))
  | [] => some []
  | (k, x) :: xs =>
    match jsonSerialize x, jsonSerializeDict xs with
    | some v, some vs => some ((k, v) :: vs)
    | _, _ => none

end

/-- A stored timestamp field: either a parsable instant or unparsable
raw text (datetime.fromisoformat would raise ValueError on it). -/
inductive TimeField where
  | valid (t : Int)
  | invalid (raw : String)
deriving DecidableEq, Repr

/-- datetime.fromisoformat on a stored timestamp field. -/
def fromIsoformat : TimeField → Option Int
  | .valid t => some t
  | .invalid _ => none

/-- One job record, the Redis hash stored under key job:{id}. -/
structure Job where
  jobType : String
  jobData : PyVal
  status : JobStatus
  priority : Int
  createdAt : Int
  startedAt : Option Int
  completedAt : Option TimeField
  result : Option JVal
  error : Option String
  trace : Option String
  progress : Nat
  message : Option String

/-- Outcome of invoking a handler coroutine. -/
inductive HandlerOutcome where
  | ok (value : PyVal)
  | raised (message : String)

/-- A registered job handler: receives (job_id, job_data) and either
returns a value or raises. -/
def Handler : Type := Nat → PyVal → HandlerOutcome

/-- State of the JobProcessor service: the job store, the priority
queue (Redis sorted set job_queue), the handler registry, the uuid
freshness counter, and the current wall clock. -/
structure ProcState where
  jobs : List (Nat × Job)
  queue : List (Nat × Int)
  handlers : List (String × Handler)
  nextId : Nat
  clock : Int

/-- Log of status-field changes: (job id, old status, new status). -/
abbrev TransLog := List (Nat × JobStatus × JobStatus)

/-- Redis hgetall on key job:{id}. -/
def lookupJob (jobs : List (Nat × Job)) (id : Nat) : Option Job :=
  (jobs.find? (fun e => e.1 == id)).map (fun e => e.2)

/-- Redis hset/hmset of a full record under job:{id}: overwrite the
record when the id is present, append it otherwise.  The returned log
records the status change this write performs, if any. -/
def putJob (s : ProcState) (id : Nat) (j : Job) : ProcState × TransLog :=
  match lookupJob s.jobs id with
  | some old =>
      ({ s with jobs := s.jobs.map (fun e => if e.1 == id then (id, j) else e) },
       if old.status = j.status then [] else [(id, old.status, j.status)])
  | none => ({ s with jobs := s.jobs ++ [(id, j)] }, [])

/-- Redis zadd: insert or update the score of a member. -/
def zadd (q : List (Nat × Int)) (id : Nat) (score : Int) : List (Nat × Int) :=
  q.filter (fun e => !(e.1 == id)) ++ [(id, score)]

/-- Redis zrem: remove a member. -/
def zrem (q : List (Nat × Int)) (id : Nat) : List (Nat × Int) :=
  q.filter (fun e => !(e.1 == id))

/-- Redis zrevrange job_queue 0 0 withscores: an element of maximal
score, ties broken arbitrarily. -/
def zrevrangeTop : List (Nat × Int) → Option (Nat × Int)
  | [] => none
  | e :: rest =>
    match zrevrangeTop rest with
    | none => some e
    | some best => if best.2 > e.2 then some best else some e

/-- JobProcessor.submit_job: create a PENDING record with a fresh id
and add the id to the priority queue. -/
def submitJob (s : ProcState) (jobType : String) (jobData : PyVal) (priority : Int) :
    (Nat × ProcState) × TransLog :=
  let id := s.nextId
  let job : Job :=
    { jobType := jobType
      jobData := jobData
      status := .pending
      priority := priority
      createdAt := s.clock
      startedAt := none
      completedAt := none
      result := none
      error := none
      trace := none
      progress := 0
      message := none }
  let r := putJob { s with nextId := s.nextId + 1 } id job
  ((id, { r.1 with queue := zadd r.1.queue id priority }), r.2)

/-- JobProcessor.get_job_status, at record granularity. -/
def getJobStatus (s : ProcState) (id : Nat) : Option Job :=
  lookupJob s.jobs id

/-- JobProcessor.update_job_progress: hmset of progress and optional
message onto an existing record (modelled at record granularity). -/
def updateJobProgress (s : ProcState) (id : Nat) (progress : Nat)
    (message : Option String) : ProcState × TransLog :=
  match lookupJob s.jobs id with
  | none => (s, [])
  | some j =>
    putJob s id
      { j with
        progress := progress
        message := match message with | some m => some m | none => j.message }

/-- JobProcessor.cancel_job: a PENDING or RUNNING job is marked
CANCELLED with a completion timestamp (a PENDING one is also removed
from the queue) and True is returned; otherwise False, no change. -/
def cancelJob (s : ProcState) (id : Nat) : Bool × (ProcState × TransLog) :=
  match lookupJob s.jobs id with
  | none => (false, (s, []))
  | some j =>
    if j.status = .pending ∨ j.status = .running then
      let r := putJob s id
        { j with status := .cancelled, completedAt := some (.valid s.clock) }
      let s2 := if j.status = .pending then { r.1 with queue := zrem r.1.queue id } else r.1
      (true, (s2, r.2))
    else (false, (s, []))

/-- Handler registry lookup, self.handlers.get(job_type). -/
def lookupHandler (s : ProcState) (jobType : String) : Option Handler :=
  (s.handlers.find? (fun e => e.1 == jobType)).map (fun e => e.2)

/-- The except-branch of JobProcessor._process_single_job: mark the job
FAILED, stamp completed_at, store the error text and a traceback. -/
def failJob (s : ProcState) (id : Nat) (j : Job) (msg : String) : ProcState × TransLog :=
  putJob s id
    { j with
      status := .failed
      completedAt := some (.valid s.clock)
      error := some msg
      trace := some ("Traceback (most recent call last): " ++ msg) }

/-- JobProcessor._process_single_job: skip a missing or non-PENDING
job; otherwise mark RUNNING, resolve and run the handler, and write the
COMPLETED record (serialized result, progress 100) or, on a missing
handler, a raised exception, or an unserializable result, the FAILED
record.  All exceptions are caught; the function always returns. -/
def processSingleJob (s : ProcState) (id : Nat) : ProcState × TransLog :=
  match lookupJob s.jobs id with
  | none => (s, [])
  | some j =>
    if j.status = .pending then
      let running := { j with status := JobStatus.running, startedAt := some s.clock }
      let r1 := putJob s id running
      match lookupHandler s j.jobType with
      | none =>
        let r2 := failJob r1.1 id running
          ("No handler registered for job type: " ++ j.jobType)
        (r2.1, r1.2 ++ r2.2)
      | some h =>
        match h id j.jobData with
        | .raised msg =>
          let r2 := failJob r1.1 id running msg
          (r2.1, r1.2 ++ r2.2)
        | .ok value =>
          match jsonSerialize value with
          | none =>
            let r2 := failJob r1.1 id running "Object of type is not JSON serializable"
            (r2.1, r1.2 ++ r2.2)
          | some jr =>
            let r2 := putJob r1.1 id
              { running with
                status := JobStatus.completed
                completedAt := some (.valid s.clock)
                result := some jr
                progress := 100 }
            (r2.1, r1.2 ++ r2.2)
    else (s, [])

/-- One iteration of the JobProcessor.process_jobs loop with a
nonempty queue: pop a highest-priority id, remove it from the queue,
process it. -/
def processIteration (s : ProcState) : ProcState × TransLog :=
  match zrevrangeTop s.queue with
  | none => (s, [])
  | some (id, _) => processSingleJob { s with queue := zrem s.queue id } id

/-- The deletion test of JobProcessor.cleanup_old_jobs for one record:
terminal status, parsable completed_at, strictly older than the
cutoff.  An unparsable completed_at raises ValueError, which the code
swallows (pass), keeping the record. -/
def shouldCleanup (cutoff : Int) (j : Job) : Bool :=
  if j.status = .completed ∨ j.status = .failed ∨ j.status = .cancelled then
    match j.completedAt with
    | some tf =>
      match fromIsoformat tf with
      | some t => decide (t < cutoff)
      | none => false
    | none => false
  else false

/-- JobProcessor.cleanup_old_jobs: delete every record passing the
deletion test against cutoff = now - max_age_hours. -/
def cleanupOldJobs (s : ProcState) (maxAgeHours : Int) : ProcState × TransLog :=
  let cutoff := s.clock - maxAgeHours * 3600
  ({ s with jobs := s.jobs.filter (fun e => !(shouldCleanup cutoff e.2)) }, [])

/-- The operations of the claim-level interface, as invoked by the API
layer and the dispatcher. -/
inductive Op where
  | submit (jobType : String) (jobData : PyVal) (priority : Int)
  | cancel (id : Nat)
  | processSingle (id : Nat)
  | updateProgress (id : Nat) (progress : Nat) (message : Option String)
  | cleanup (maxAgeHours : Int)

/-- Apply one operation, returning the new state and its status-change log. -/
def applyOp (s : ProcState) : Op → ProcState × TransLog
  | .submit t d p => let r := submitJob s t d p; (r.1.2, r.2)
  | .cancel id => (cancelJob s id).2
  | .processSingle id => processSingleJob s id
  | .updateProgress id p m => updateJobProgress s id p m
  | .cleanup h => cleanupOldJobs s h

/-- Run a sequence of operations, concatenating the logs. -/
def runOps (s : ProcState) : List Op → ProcState × TransLog
  | [] => (s, [])
  | op :: ops =>
    let r1 := applyOp s op
    let r2 := runOps r1.1 ops
    (r2.1, r1.2 ++ r2.2)

/-- The state at process start: empty store and queue, handlers
registered during startup, no job ever submitted. -/
def initState (handlers : List (String × Handler)) (clock : Int) : ProcState :=
  { jobs := [], queue := [], handlers := handlers, nextId := 0, clock := clock }

/-- The transition relation the spec allows on the status field. -/
def allowedTransition : JobStatus → JobStatus → Bool
  | .pending, .running => true
  | .running, .completed => true
  | .running, .failed => true
  | .pending, .cancelled => true
  | _, _ => false

/-- A successful store lookup returns a stored entry. -/
lemma lookupJob_mem {jobs : List (Nat × Job)} {id : Nat} {j : Job}
    (h : lookupJob jobs id = some j) : (id, j) ∈ jobs := by
  unfold lookupJob at h
  cases hf : jobs.find? (fun e => e.1 == id) with
  | none => rw [hf] at h; simp at h
  | some e =>
    rw [hf] at h
    have hp := List.find?_some hf
    have hm := List.mem_of_find?_eq_some hf
    have h1 : e.1 = id := by simpa using hp
    have h2 : e.2 = j := by simpa using h
    have he : (id, j) = e := by
      cases e
      simp_all
    rw [he]
    exact hm

/-- An id below the freshness counter bound is absent. -/
lemma lookupJob_eq_none {jobs : List (Nat × Job)} {n : Nat}
    (h : ∀ e ∈ jobs, e.1 < n) : lookupJob jobs n = none := by
  unfold lookupJob
  have hf : jobs.find? (fun e => e.1 == n) = none :=
    List.find?_eq_none.mpr (by intro e he; simpa using Nat.ne_of_lt (h e he))
  rw [hf]
  rfl

/-- A failed lookup means the underlying search failed. -/
lemma lookupJob_none_find? {jobs : List (Nat × Job)} {id : Nat}
    (h : lookupJob jobs id = none) : jobs.find? (fun e => e.1 == id) = none := by
  unfold lookupJob at h
  cases hf : jobs.find? (fun e => e.1 == id) with
  | none => rfl
  | some e => rw [hf] at h; simp at h

/-- Writing a job record does not touch the queue. -/
lemma putJob_queue (s : ProcState) (id : Nat) (j : Job) :
    (putJob s id j).1.queue = s.queue := by
  cases hl : lookupJob s.jobs id <;> simp [putJob, hl]

/-- Writing a job record does not touch the freshness counter. -/
lemma putJob_nextId (s : ProcState) (id : Nat) (j : Job) :
    (putJob s id j).1.nextId = s.nextId := by
  cases hl : lookupJob s.jobs id <;> simp [putJob, hl]

/-- Writing a job record does not touch the clock. -/
lemma putJob_clock (s : ProcState) (id : Nat) (j : Job) :
    (putJob s id j).1.clock = s.clock := by
  cases hl : lookupJob s.jobs id <;> simp [putJob, hl]

/-- Writing a job record does not touch the handler registry. -/
lemma putJob_handlers (s : ProcState) (id : Nat) (j : Job) :
    (putJob s id j).1.handlers = s.handlers := by
  cases hl : lookupJob s.jobs id <;> simp [putJob, hl]

/-- Every entry after a record write is the written record or an
untouched entry under a different id. -/
lemma putJob_mem {s : ProcState} {id : Nat} {j : Job} {e : Nat × Job}
    (h : e ∈ (putJob s id j).1.jobs) : e = (id, j) ∨ (e ∈ s.jobs ∧ e.1 ≠ id) := by
  cases hl : lookupJob s.jobs id with
  | some old =>
    simp only [putJob, hl, List.mem_map] at h
    obtain ⟨a, ha, hae⟩ := h
    by_cases hc : a.1 = id
    · left
      rw [← hae]
      simp [hc]
    · right
      have hb : ¬ ((a.1 == id) = true) := by simpa using hc
      rw [← hae, if_neg hb]
      exact ⟨ha, hc⟩
  | none =>
    simp only [putJob, hl] at h
    rw [List.mem_append] at h
    cases h with
    | inl hmem =>
      right
      refine ⟨hmem, ?_⟩
      have hf := List.find?_eq_none.mp (lookupJob_none_find? hl) e hmem
      simpa using hf
    | inr hmem =>
      left
      simpa using hmem

/-- Search after replacing the entries under an id that is present. -/
lemma find?_map_replace (l : List (Nat × Job)) (id : Nat) (j : Job)
    (h : (l.find? (fun e => e.1 == id)).isSome) :
    ((l.map (fun e => if e.1 == id then (id, j) else e)).find?
      (fun e => e.1 == id)) = some (id, j) := by
  induction l with
  | nil => simp at h
  | cons a rest ih =>
    by_cases hc : a.1 = id
    · simp only [List.map_cons, hc]
      rw [if_pos (by simp)]
      exact List.find?_cons_of_pos (p := fun (e : Nat × Job) => e.1 == id) _ (by simp)
    · have hb : ¬ ((a.1 == id) = true) := by simpa using hc
      simp only [List.map_cons]
      rw [if_neg hb, List.find?_cons_of_neg (p := fun (e : Nat × Job) => e.1 == id) _ hb]
      apply ih
      rw [List.find?_cons_of_neg (p := fun (e : Nat × Job) => e.1 == id) _ hb] at h
      exact h

/-- A record write is visible to an immediate read of the same id. -/
lemma lookupJob_putJob_self (s : ProcState) (id : Nat) (j : Job) :
    lookupJob (putJob s id j).1.jobs id = some j := by
  cases hl : lookupJob s.jobs id with
  | some old =>
    simp only [putJob, hl]
    unfold lookupJob
    rw [find?_map_replace]
    · rfl
    · unfold lookupJob at hl
      cases hf : s.jobs.find? (fun e => e.1 == id) with
      | none => rw [hf] at hl; simp at hl
      | some e => simp [hf]
  | none =>
    simp only [putJob, hl]
    unfold lookupJob
    rw [List.find?_append, lookupJob_none_find? hl]
    simp [List.find?]

/-- Well-formedness at operation boundaries: no job is RUNNING (the
dispatcher finishes each job within one operation), and every stored id
is below the freshness counter (uuid uniqueness). -/
def WF (s : ProcState) : Prop :=
  (∀ e ∈ s.jobs, e.2.status ≠ JobStatus.running) ∧ (∀ e ∈ s.jobs, e.1 < s.nextId)

/-- The initial state is well-formed. -/
lemma initState_wf (handlers : List (String × Handler)) (clock : Int) :
    WF (initState handlers clock) := by
  constructor <;> intro e he <;> simp [initState] at he

/-- Submission preserves well-formedness and changes no status. -/
lemma submitJob_step {s : ProcState} (hwf : WF s) (t : String) (d : PyVal) (p : Int) :
    WF (submitJob s t d p).1.2 ∧ (submitJob s t d p).2 = [] := by
  obtain ⟨hnr, hfresh⟩ := hwf
  have hnone : lookupJob s.jobs s.nextId = none := lookupJob_eq_none hfresh
  refine ⟨⟨?_, ?_⟩, ?_⟩
  · intro e he
    simp only [submitJob, putJob, hnone] at he
    rw [List.mem_append] at he
    cases he with
    | inl h => exact hnr e h
    | inr h =>
      simp at h
      subst h
      simp
  · intro e he
    simp only [submitJob, putJob, hnone] at he
    rw [List.mem_append] at he
    simp only [submitJob, putJob, hnone]
    cases he with
    | inl h => exact Nat.lt_succ_of_lt (hfresh e h)
    | inr h =>
      simp at h
      subst h
      exact Nat.lt_succ_self _
  · simp [submitJob, putJob, hnone]

/-- Cancellation preserves well-formedness and logs only a
PENDING→CANCELLED transition. -/
lemma cancelJob_step {s : ProcState} (hwf : WF s) (id : Nat) :
    WF (cancelJob s id).2.1 ∧
      ∀ entry ∈ (cancelJob s id).2.2,
        allowedTransition entry.2.1 entry.2.2 = true ∧ entry.2.1.isTerminal = false := by
  obtain ⟨hnr, hfresh⟩ := hwf
  cases hl : lookupJob s.jobs id with
  | none =>
    simp only [cancelJob, hl]
    exact ⟨⟨hnr, hfresh⟩, by simp⟩
  | some j =>
    have hjnr : j.status ≠ JobStatus.running := hnr (id, j) (lookupJob_mem hl)
    by_cases hc : j.status = JobStatus.pending ∨ j.status = JobStatus.running
    · have hpend : j.status = JobStatus.pending := hc.resolve_right hjnr
      have hstate : (cancelJob s id).2.1.jobs =
          (putJob s id { j with status := JobStatus.cancelled, completedAt := some (TimeField.valid s.clock) }).1.jobs := by
        simp [cancelJob, hl, hc, hpend]
      have hnid : (cancelJob s id).2.1.nextId = s.nextId := by
        simp [cancelJob, hl, hc, hpend, putJob_nextId]
      have hlog : (cancelJob s id).2.2 = [(id, j.status, JobStatus.cancelled)] := by
        simp [cancelJob, hl, hc, putJob, hpend]
      refine ⟨⟨?_, ?_⟩, ?_⟩
      · intro e he
        rw [hstate] at he
        rcases putJob_mem he with h1 | h2
        · rw [h1]
          simp
        · exact hnr e h2.1
      · intro e he
        rw [hstate] at he
        rw [hnid]
        rcases putJob_mem he with h1 | h2
        · rw [h1]
          exact hfresh (id, j) (lookupJob_mem hl)
        · exact hfresh e h2.1
      · intro entry hentry
        rw [hlog] at hentry
        simp at hentry
        rw [hentry, hpend]
        exact ⟨rfl, rfl⟩
    · simp only [cancelJob, hl, if_neg hc]
      exact ⟨⟨hnr, hfresh⟩, by simp⟩

/-- Progress updates preserve well-formedness and change no status. -/
lemma updateJobProgress_step {s : ProcState} (hwf : WF s) (id : Nat) (p : Nat)
    (m : Option String) :
    WF (updateJobProgress s id p m).1 ∧ (updateJobProgress s id p m).2 = [] := by
  obtain ⟨hnr, hfresh⟩ := hwf
  cases hl : lookupJob s.jobs id with
  | none =>
    simp only [updateJobProgress, hl]
    exact ⟨⟨hnr, hfresh⟩, by simp⟩
  | some j =>
    constructor
    · constructor
      · intro e he
        simp only [updateJobProgress, hl] at he
        rcases putJob_mem (s := s) he with h1 | h2
        · rw [h1]
          exact hnr (id, j) (lookupJob_mem hl)
        · exact hnr e h2.1
      · intro e he
        simp only [updateJobProgress, hl] at he ⊢
        rw [putJob_nextId]
        rcases putJob_mem (s := s) he with h1 | h2
        · rw [h1]
          exact hfresh (id, j) (lookupJob_mem hl)
        · exact hfresh e h2.1
    · simp only [updateJobProgress, hl, putJob, hl]
      simp

/-- The retention sweep preserves well-formedness and changes no status. -/
lemma cleanupOldJobs_step {s : ProcState} (hwf : WF s) (h : Int) :
    WF (cleanupOldJobs s h).1 ∧ (cleanupOldJobs s h).2 = [] := by
  obtain ⟨hnr, hfresh⟩ := hwf
  refine ⟨⟨?_, ?_⟩, rfl⟩
  · intro e he
    simp only [cleanupOldJobs] at he
    exact hnr e (List.mem_filter.mp he).1
  · intro e he
    simp only [cleanupOldJobs] at he ⊢
    exact hfresh e (List.mem_filter.mp he).1

/-- Two successive writes, RUNNING then a non-RUNNING record, keep the
store free of RUNNING jobs and of stale ids. -/
lemma twoWrites_wf {s : ProcState} {id : Nat} {j run2 fin : Job}
    (hnr : ∀ e ∈ s.jobs, e.2.status ≠ JobStatus.running)
    (hfresh : ∀ e ∈ s.jobs, e.1 < s.nextId)
    (hl : lookupJob s.jobs id = some j)
    (hfs : fin.status ≠ JobStatus.running) :
    WF (putJob (putJob s id run2).1 id fin).1 := by
  constructor
  · intro e he
    rcases putJob_mem he with h1 | h2
    · rw [h1]
      exact hfs
    · rcases putJob_mem h2.1 with h3 | h4
      · exact absurd (congrArg Prod.fst h3) h2.2
      · exact hnr e h4.1
  · intro e he
    rw [putJob_nextId, putJob_nextId]
    rcases putJob_mem he with h1 | h2
    · rw [h1]
      exact hfresh (id, j) (lookupJob_mem hl)
    · rcases putJob_mem h2.1 with h3 | h4
      · exact absurd (congrArg Prod.fst h3) h2.2
      · exact hfresh e h4.1

/-- The concatenated log of the RUNNING write and the terminal write. -/
lemma twoWrites_log {s : ProcState} {id : Nat} {j run2 fin : Job}
    (hl : lookupJob s.jobs id = some j)
    (hp : j.status = JobStatus.pending)
    (hrs : run2.status = JobStatus.running)
    (hfs : fin.status ≠ JobStatus.running) :
    (putJob s id run2).2 ++ (putJob (putJob s id run2).1 id fin).2 =
      [(id, j.status, run2.status), (id, run2.status, fin.status)] := by
  have hne1 : ¬ (j.status = run2.status) := by simp [hp, hrs]
  have hne2 : ¬ (run2.status = fin.status) := fun hcon => hfs (by rw [← hcon, hrs])
  have h1 : (putJob s id run2).2 = [(id, j.status, run2.status)] := by
    simp only [putJob, hl]
    rw [if_neg hne1]
  have hself := lookupJob_putJob_self s id run2
  have h2 : ∀ s1 : ProcState, lookupJob s1.jobs id = some run2 →
      (putJob s1 id fin).2 = [(id, run2.status, fin.status)] := by
    intro s1 hself1
    simp only [putJob, hself1]
    rw [if_neg hne2]
  rw [h1, h2 _ hself]
  rfl

/-- The two-write pattern of one dispatch preserves well-formedness and
its log is PENDING→RUNNING, RUNNING→{COMPLETED,FAILED}. -/
lemma twoWrites_step {s : ProcState} {id : Nat} {j run2 fin : Job}
    (hnr : ∀ e ∈ s.jobs, e.2.status ≠ JobStatus.running)
    (hfresh : ∀ e ∈ s.jobs, e.1 < s.nextId)
    (hl : lookupJob s.jobs id = some j)
    (hp : j.status = JobStatus.pending)
    (hrs : run2.status = JobStatus.running)
    (hfs : fin.status = JobStatus.completed ∨ fin.status = JobStatus.failed) :
    WF (putJob (putJob s id run2).1 id fin).1 ∧
      ∀ entry ∈ (putJob s id run2).2 ++ (putJob (putJob s id run2).1 id fin).2,
        allowedTransition entry.2.1 entry.2.2 = true ∧ entry.2.1.isTerminal = false := by
  have hfs2 : fin.status ≠ JobStatus.running := by
    cases hfs with
    | inl h => rw [h]; simp
    | inr h => rw [h]; simp
  refine ⟨twoWrites_wf hnr hfresh hl hfs2, ?_⟩
  intro entry hentry
  rw [twoWrites_log hl hp hrs hfs2] at hentry
  simp at hentry
  cases hentry with
  | inl h =>
    rw [h, hp, hrs]
    exact ⟨rfl, rfl⟩
  | inr h =>
    rw [h, hrs]
    cases hfs with
    | inl hc => rw [hc]; exact ⟨rfl, rfl⟩
    | inr hc => rw [hc]; exact ⟨rfl, rfl⟩

/-- Dispatching one job preserves well-formedness and logs only allowed
transitions out of non-terminal states. -/
lemma processSingleJob_step {s : ProcState} (hwf : WF s) (id : Nat) :
    WF (processSingleJob s id).1 ∧
      ∀ entry ∈ (processSingleJob s id).2,
        allowedTransition entry.2.1 entry.2.2 = true ∧ entry.2.1.isTerminal = false := by
  obtain ⟨hnr, hfresh⟩ := hwf
  cases hl : lookupJob s.jobs id with
  | none =>
    simp only [processSingleJob, hl]
    exact ⟨⟨hnr, hfresh⟩, by simp⟩
  | some j =>
    by_cases hp : j.status = JobStatus.pending
    case neg =>
      simp only [processSingleJob, hl, if_neg hp]
      exact ⟨⟨hnr, hfresh⟩, by simp⟩
    case pos =>
      cases hh : lookupHandler s j.jobType with
      | none =>
        simp only [processSingleJob, hl, if_pos hp, hh, failJob]
        exact twoWrites_step hnr hfresh hl hp rfl (Or.inr rfl)
      | some h =>
        cases hout : h id j.jobData with
        | raised msg =>
          simp only [processSingleJob, hl, if_pos hp, hh, hout, failJob]
          exact twoWrites_step hnr hfresh hl hp rfl (Or.inr rfl)
        | ok value =>
          cases hser : jsonSerialize value with
          | none =>
            simp only [processSingleJob, hl, if_pos hp, hh, hout, hser, failJob]
            exact twoWrites_step hnr hfresh hl hp rfl (Or.inr rfl)
          | some jr =>
            simp only [processSingleJob, hl, if_pos hp, hh, hout, hser]
            exact twoWrites_step hnr hfresh hl hp rfl (Or.inl rfl)

/-- Every operation preserves well-formedness and logs only allowed
transitions out of non-terminal states. -/
lemma applyOp_step {s : ProcState} (hwf : WF s) (op : Op) :
    WF (applyOp s op).1 ∧
      ∀ entry ∈ (applyOp s op).2,
        allowedTransition entry.2.1 entry.2.2 = true ∧ entry.2.1.isTerminal = false := by
  cases op with
  | submit t d p =>
    obtain ⟨h1, h2⟩ := submitJob_step hwf t d p
    simp only [applyOp]
    refine ⟨h1, ?_⟩
    rw [h2]
    simp
  | cancel id => exact cancelJob_step hwf id
  | processSingle id => exact processSingleJob_step hwf id
  | updateProgress id p m =>
    obtain ⟨h1, h2⟩ := updateJobProgress_step hwf id p m
    simp only [applyOp]
    refine ⟨h1, ?_⟩
    rw [h2]
    simp
  | cleanup h =>
    obtain ⟨h1, h2⟩ := cleanupOldJobs_step hwf h
    simp only [applyOp]
    refine ⟨h1, ?_⟩
    rw [h2]
    simp

/-- Any operation sequence from a well-formed state logs only allowed
transitions out of non-terminal states. -/
lemma runOps_log {s : ProcState} (hwf : WF s) (ops : List Op) :
    ∀ entry ∈ (runOps s ops).2,
      allowedTransition entry.2.1 entry.2.2 = true ∧ entry.2.1.isTerminal = false := by
  induction ops generalizing s with
  | nil =>
    intro entry hentry
    simp [runOps] at hentry
  | cons op ops ih =>
    intro entry hentry
    simp only [runOps] at hentry
    rw [List.mem_append] at hentry
    obtain ⟨h1, h2⟩ := applyOp_step hwf op
    cases hentry with
    | inl h => exact h2 entry h
    | inr h => exact ih h1 entry h

/-- C1: along every sequence of the operations submit_job, cancel_job,
_process_single_job, update_job_progress and cleanup_old_jobs from
process start, the status field of every job changes only along
PENDING→RUNNING, RUNNING→COMPLETED, RUNNING→FAILED or PENDING→CANCELLED,
and no write ever moves a job out of a terminal state. -/
theorem job_status_machine (handlers : List (String × Handler)) (clock : Int)
    (ops : List Op) :
    ∀ entry ∈ (runOps (initState handlers clock) ops).2,
      allowedTransition entry.2.1 entry.2.2 = true ∧ entry.2.1.isTerminal = false :=
  runOps_log (initState_wf handlers clock) ops

/-- A demonstration handler that returns None. -/
def demoHandler : Handler := fun _ _ => HandlerOutcome.ok PyVal.pyNone

/-- Witness run: one submission followed by its dispatch. -/
def demoOps : List Op := [Op.submit "profile" PyVal.pyNone 5, Op.processSingle 0]

/-- Witness for C1 at a concrete run: the PENDING→RUNNING entry logged
by the demonstration run is an allowed transition out of a non-terminal
state. -/
theorem job_status_machine_witness :
    allowedTransition JobStatus.pending JobStatus.running = true ∧
      JobStatus.pending.isTerminal = false :=
  job_status_machine [("profile", demoHandler)] 0 demoOps
    (0, JobStatus.pending, JobStatus.running) (by decide)

/-- A string with a nonempty left part is nonempty. -/
lemma append_ne_empty {a : String} (b : String) (ha : a ≠ "") : a ++ b ≠ "" := by
  intro hcon
  apply ha
  have h1 : (a ++ b).length = 0 := by rw [hcon]; rfl
  rw [String.length_append] at h1
  have h2 : a.length = 0 := Nat.eq_zero_of_add_eq_zero_right h1
  cases a with
  | mk data =>
    cases data with
    | nil => rfl
    | cons c cs => simp [String.length] at h2

/-- Dispatching a single job never touches the priority queue (the
dispatch loop removed the id before the call). -/
lemma processSingleJob_queue (s : ProcState) (id : Nat) :
    (processSingleJob s id).1.queue = s.queue := by
  cases hl : lookupJob s.jobs id with
  | none => simp [processSingleJob, hl]
  | some j =>
    by_cases hp : j.status = JobStatus.pending
    case neg => simp [processSingleJob, hl, hp]
    case pos =>
      cases hh : lookupHandler s j.jobType with
      | none => simp [processSingleJob, hl, hp, hh, failJob, putJob_queue]
      | some h =>
        cases hout : h id j.jobData with
        | raised msg => simp [processSingleJob, hl, hp, hh, hout, failJob, putJob_queue]
        | ok value =>
          cases hser : jsonSerialize value with
          | none => simp [processSingleJob, hl, hp, hh, hout, hser, failJob, putJob_queue]
          | some jr => simp [processSingleJob, hl, hp, hh, hout, hser, putJob_queue]

/-- C3, amended: dispatching a PENDING job whose type has no
registered handler writes the job back FAILED with a non-empty error
message, a traceback and completed_at stamped; dispatching one whose
handler raises writes it back FAILED with the error field set to the
raised exception's message (so non-empty exactly when the exception
carries text — see the counterexample for an empty-text exception), a
traceback and completed_at stamped; in both cases the queue is left
intact for the next loop iteration and the call returns normally. -/
theorem failed_job_record (s : ProcState) (id : Nat) (j : Job) (msg : String)
    (hl : getJobStatus s id = some j) (hp : j.status = JobStatus.pending) :
    (lookupHandler s j.jobType = none →
      ∃ j2 : Job, getJobStatus (processSingleJob s id).1 id = some j2 ∧
        j2.status = JobStatus.failed ∧
        (∃ e, j2.error = some e ∧ e ≠ "") ∧
        j2.trace ≠ none ∧
        j2.completedAt = some (TimeField.valid s.clock) ∧
        (processSingleJob s id).1.queue = s.queue) ∧
    (∀ h : Handler, lookupHandler s j.jobType = some h →
      h id j.jobData = HandlerOutcome.raised msg →
      ∃ j2 : Job, getJobStatus (processSingleJob s id).1 id = some j2 ∧
        j2.status = JobStatus.failed ∧
        j2.error = some msg ∧
        j2.trace ≠ none ∧
        j2.completedAt = some (TimeField.valid s.clock) ∧
        (processSingleJob s id).1.queue = s.queue) := by
  rw [getJobStatus] at hl
  have hq := processSingleJob_queue s id
  constructor
  · intro hh
    have hrec : getJobStatus (processSingleJob s id).1 id =
        some { j with status := JobStatus.failed, startedAt := some s.clock, completedAt := some (TimeField.valid s.clock), error := some ("No handler registered for job type: " ++ j.jobType), trace := some ("Traceback (most recent call last): " ++ ("No handler registered for job type: " ++ j.jobType)) } := by
      rw [getJobStatus]
      simp only [processSingleJob, hl, if_pos hp, hh, failJob, putJob_clock]
      exact lookupJob_putJob_self _ _ _
    exact ⟨_, hrec, rfl, ⟨_, rfl, append_ne_empty _ (by decide)⟩, by simp, rfl, hq⟩
  · intro h hh hout
    have hrec : getJobStatus (processSingleJob s id).1 id =
        some { j with status := JobStatus.failed, startedAt := some s.clock, completedAt := some (TimeField.valid s.clock), error := some msg, trace := some ("Traceback (most recent call last): " ++ msg) } := by
      rw [getJobStatus]
      simp only [processSingleJob, hl, if_pos hp, hh, hout, failJob, putJob_clock]
      exact lookupJob_putJob_self _ _ _
    exact ⟨_, hrec, rfl, rfl, by simp, rfl, hq⟩

/-- A fixed job record used by the concrete witnesses. -/
def demoJob (st : JobStatus) : Job :=
  { jobType := "profile", jobData := PyVal.pyNone, status := st, priority := 5, createdAt := 0, startedAt := none, completedAt := none, result := none, error := none, trace := none, progress := 0, message := none }

/-- A state holding one pending job and no registered handlers. -/
def demoPendingState : ProcState :=
  { jobs := [(0, demoJob JobStatus.pending)], queue := [(0, 5)], handlers := [], nextId := 1, clock := 7 }

/-- A handler that raises an exception whose str is empty, as
Exception() gives in Python. -/
def demoEmptyRaiseHandler : Handler := fun _ _ => HandlerOutcome.raised ""

/-- A state holding one pending job whose handler raises with empty
exception text. -/
def demoEmptyFailState : ProcState :=
  { jobs := [(0, demoJob JobStatus.pending)], queue := [(0, 5)],
    handlers := [("profile", demoEmptyRaiseHandler)], nextId := 1, clock := 7 }

/-- Counterexample for C3: a PENDING job whose handler raises an
exception with empty text is written back FAILED with an empty error
field, so the stored error message is not non-empty as the claim
states. -/
theorem failed_job_record_counterexample :
    ∃ j2 : Job, getJobStatus (processSingleJob demoEmptyFailState 0).1 0 = some j2 ∧
      j2.status = JobStatus.failed ∧
      j2.error = some "" ∧
      ¬ (∃ e, j2.error = some e ∧ e ≠ "") := by
  refine ⟨_, rfl, rfl, rfl, ?_⟩
  rintro ⟨e, he, hne⟩
  have hc : (some "" : Option String) = some e := he
  injection hc with hc
  exact hne hc.symm

/-- A handler that raises with non-empty exception text. -/
def demoBoomHandler : Handler := fun _ _ => HandlerOutcome.raised "boom"

/-- A state holding one pending job whose handler raises with text. -/
def demoRaiseState : ProcState :=
  { jobs := [(0, demoJob JobStatus.pending)], queue := [(0, 5)],
    handlers := [("profile", demoBoomHandler)], nextId := 1, clock := 7 }

/-- Witness for C3: dispatching the pending job of the handler-less
demonstration state yields a FAILED record with non-empty error text,
and dispatching the one whose handler raises with text boom yields a
FAILED record whose error field is that text; both carry a traceback
and a completion stamp. -/
theorem failed_job_record_witness :
    (∃ j2 : Job, getJobStatus (processSingleJob demoPendingState 0).1 0 = some j2 ∧
      j2.status = JobStatus.failed ∧
      (∃ e, j2.error = some e ∧ e ≠ "") ∧
      j2.trace ≠ none ∧
      j2.completedAt = some (TimeField.valid 7) ∧
      (processSingleJob demoPendingState 0).1.queue = demoPendingState.queue) ∧
    (∃ j2 : Job, getJobStatus (processSingleJob demoRaiseState 0).1 0 = some j2 ∧
      j2.status = JobStatus.failed ∧
      j2.error = some "boom" ∧
      j2.trace ≠ none ∧
      j2.completedAt = some (TimeField.valid 7) ∧
      (processSingleJob demoRaiseState 0).1.queue = demoRaiseState.queue) :=
  ⟨(failed_job_record demoPendingState 0 (demoJob JobStatus.pending) "boom" rfl rfl).1 rfl,
   (failed_job_record demoRaiseState 0 (demoJob JobStatus.pending) "boom" rfl rfl).2
     demoBoomHandler rfl rfl⟩

/-- Final record of a dispatch whose handler returned a serializable
value. -/
lemma processSingleJob_ok (s : ProcState) (id : Nat) (j : Job) (h : Handler)
    (value : PyVal) (jr : JVal)
    (hl : lookupJob s.jobs id = some j) (hp : j.status = JobStatus.pending)
    (hh : lookupHandler s j.jobType = some h)
    (hout : h id j.jobData = HandlerOutcome.ok value)
    (hser : jsonSerialize value = some jr) :
    lookupJob (processSingleJob s id).1.jobs id =
      some { j with status := JobStatus.completed, startedAt := some s.clock, completedAt := some (TimeField.valid s.clock), result := some jr, progress := 100 } := by
  simp only [processSingleJob, hl, if_pos hp, hh, hout, hser]
  exact lookupJob_putJob_self _ _ _

/-- C4: dispatching a PENDING job whose handler returns a serializable
value writes the job back COMPLETED with completed_at stamped, progress
100, and result equal to the serialized return value; the serializer
converts numpy integers, numpy floats, ndarrays and datetimes to plain
JSON values. -/
theorem completed_job_record (s : ProcState) (id : Nat) (j : Job) (h : Handler)
    (value : PyVal) (jr : JVal)
    (hl : getJobStatus s id = some j) (hp : j.status = JobStatus.pending)
    (hh : lookupHandler s j.jobType = some h)
    (hout : h id j.jobData = HandlerOutcome.ok value)
    (hser : jsonSerialize value = some jr) :
    getJobStatus (processSingleJob s id).1 id =
      some { j with status := JobStatus.completed, startedAt := some s.clock, completedAt := some (TimeField.valid s.clock), result := some jr, progress := 100 } ∧
    (∀ n : Int, jsonSerialize (PyVal.npInt n) = some (JVal.jint n)) ∧
    (∀ q : Rat, jsonSerialize (PyVal.npFloat q) = some (JVal.jfloat q)) ∧
    (∀ xs : List Int, jsonSerialize (PyVal.npArray xs) = some (JVal.jarr (xs.map JVal.jint))) ∧
    (∀ t : Int, jsonSerialize (PyVal.pyDatetime t) = some (JVal.jstr (isoformat t))) := by
  rw [getJobStatus] at hl
  refine ⟨?_, fun n => rfl, fun q => rfl, fun xs => rfl, fun t => rfl⟩
  exact processSingleJob_ok s id j h value jr hl hp hh hout hser

/-- A state holding one pending job with a registered handler. -/
def demoOkState : ProcState :=
  { jobs := [(0, demoJob JobStatus.pending)], queue := [(0, 5)], handlers := [("profile", demoHandler)], nextId := 1, clock := 7 }

/-- Witness for C4: dispatching the pending job of the handler-equipped
demonstration state completes it with the serialized result. -/
theorem completed_job_record_witness :
    getJobStatus (processSingleJob demoOkState 0).1 0 =
      some { demoJob JobStatus.pending with status := JobStatus.completed, startedAt := some 7, completedAt := some (TimeField.valid 7), result := some JVal.jnull, progress := 100 } :=
  (completed_job_record demoOkState 0 (demoJob JobStatus.pending) demoHandler
    PyVal.pyNone JVal.jnull rfl rfl rfl rfl rfl).1

/-- C5: cancel_job returns True exactly for an existing PENDING or
RUNNING job; a PENDING job is marked CANCELLED with a completion stamp
and dequeued, a RUNNING job is marked CANCELLED with a completion stamp
without dequeuing, and a missing or terminal job yields False with the
state unchanged. -/
theorem cancel_job_spec (s : ProcState) (id : Nat) :
    ((cancelJob s id).1 = true ↔
      ∃ j, getJobStatus s id = some j ∧
        (j.status = JobStatus.pending ∨ j.status = JobStatus.running)) ∧
    (∀ j, getJobStatus s id = some j → j.status = JobStatus.pending →
      getJobStatus (cancelJob s id).2.1 id =
        some { j with status := JobStatus.cancelled, completedAt := some (TimeField.valid s.clock) } ∧
      (cancelJob s id).2.1.queue = zrem s.queue id) ∧
    (∀ j, getJobStatus s id = some j → j.status = JobStatus.running →
      getJobStatus (cancelJob s id).2.1 id =
        some { j with status := JobStatus.cancelled, completedAt := some (TimeField.valid s.clock) } ∧
      (cancelJob s id).2.1.queue = s.queue) ∧
    (∀ j, getJobStatus s id = some j → j.status.isTerminal = true →
      (cancelJob s id).1 = false ∧ (cancelJob s id).2.1 = s) ∧
    (getJobStatus s id = none → (cancelJob s id).1 = false ∧ (cancelJob s id).2.1 = s) := by
  cases hl : lookupJob s.jobs id with
  | none =>
    refine ⟨?_, ?_, ?_, ?_, ?_⟩ <;> simp [cancelJob, getJobStatus, hl]
  | some j =>
    by_cases hc : j.status = JobStatus.pending ∨ j.status = JobStatus.running
    case pos =>
      refine ⟨?_, ?_, ?_, ?_, ?_⟩
      · constructor
        · intro _
          exact ⟨j, by rw [getJobStatus, hl], hc⟩
        · intro _
          simp [cancelJob, hl, hc]
      · intro j2 hl2 hp2
        rw [getJobStatus, hl] at hl2
        injection hl2 with hj2
        subst hj2
        constructor
        · rw [getJobStatus]
          simp only [cancelJob, hl, if_pos hc, if_pos hp2]
          exact lookupJob_putJob_self _ _ _
        · simp only [cancelJob, hl, if_pos hc, if_pos hp2]
          rw [putJob_queue]
      · intro j2 hl2 hp2
        rw [getJobStatus, hl] at hl2
        injection hl2 with hj2
        subst hj2
        have hnp : ¬ (j.status = JobStatus.pending) := by simp [hp2]
        constructor
        · rw [getJobStatus]
          simp only [cancelJob, hl, if_pos hc, if_neg hnp]
          exact lookupJob_putJob_self _ _ _
        · simp only [cancelJob, hl, if_pos hc, if_neg hnp]
          rw [putJob_queue]
      · intro j2 hl2 ht2
        rw [getJobStatus, hl] at hl2
        injection hl2 with hj2
        subst hj2
        exfalso
        cases hc with
        | inl h => rw [h] at ht2; simp [JobStatus.isTerminal] at ht2
        | inr h => rw [h] at ht2; simp [JobStatus.isTerminal] at ht2
      · intro hcon
        rw [getJobStatus, hl] at hcon
        simp at hcon
    case neg =>
      refine ⟨?_, ?_, ?_, ?_, ?_⟩
      · simp [cancelJob, getJobStatus, hl, hc]
      · intro j2 hl2 hp2
        rw [getJobStatus, hl] at hl2
        injection hl2 with hj2
        subst hj2
        exact absurd (Or.inl hp2) hc
      · intro j2 hl2 hp2
        rw [getJobStatus, hl] at hl2
        injection hl2 with hj2
        subst hj2
        exact absurd (Or.inr hp2) hc
      · intro j2 hl2 ht2
        simp [cancelJob, hl, hc]
      · intro hcon
        rw [getJobStatus, hl] at hcon
        simp at hcon

/-- Witness for C5: cancelling the pending demonstration job succeeds,
stamps the record and dequeues it; cancelling a missing id fails. -/
theorem cancel_job_spec_witness :
    (cancelJob demoPendingState 0).1 = true ∧
    getJobStatus (cancelJob demoPendingState 0).2.1 0 =
      some { demoJob JobStatus.pending with status := JobStatus.cancelled, completedAt := some (TimeField.valid 7) } ∧
    (cancelJob demoPendingState 0).2.1.queue = zrem demoPendingState.queue 0 ∧
    (cancelJob demoPendingState 1).1 = false := by
  have hspec := cancel_job_spec demoPendingState 0
  have hgone := (cancel_job_spec demoPendingState 1).2.2.2.2 rfl
  have hpend := hspec.2.1 (demoJob JobStatus.pending) rfl rfl
  exact ⟨hspec.1.mpr ⟨demoJob JobStatus.pending, rfl, Or.inl rfl⟩, hpend.1, hpend.2, hgone.1⟩

/-- An empty priority queue is the only one without a top element. -/
lemma zrevrangeTop_eq_none {q : List (Nat × Int)} (h : zrevrangeTop q = none) : q = [] := by
  cases q with
  | nil => rfl
  | cons a rest =>
    exfalso
    simp only [zrevrangeTop] at h
    cases h2 : zrevrangeTop rest with
    | none =>
      rw [h2] at h
      simp at h
    | some best =>
      rw [h2] at h
      by_cases hgt : a.2 < best.2
      · simp [hgt] at h
      · simp [hgt] at h

/-- The reported top of the queue carries a maximal score. -/
lemma zrevrangeTop_max {q : List (Nat × Int)} {top : Nat × Int}
    (h : zrevrangeTop q = some top) : ∀ e ∈ q, e.2 ≤ top.2 := by
  induction q generalizing top with
  | nil => intro e he; simp at he
  | cons a rest ih =>
    intro e he
    simp only [zrevrangeTop] at h
    cases h2 : zrevrangeTop rest with
    | none =>
      rw [h2] at h
      simp at h
      subst h
      have hq : rest = [] := zrevrangeTop_eq_none h2
      subst hq
      simp at he
      simp [he]
    | some best =>
      rw [h2] at h
      by_cases hgt : a.2 < best.2
      · simp [hgt] at h
        subst h
        rcases List.mem_cons.mp he with he1 | he2
        · rw [he1]
          exact le_of_lt hgt
        · exact ih h2 e he2
      · simp [hgt] at h
        subst h
        rcases List.mem_cons.mp he with he1 | he2
        · simp [he1]
        · exact le_trans (ih h2 e he2) (not_lt.mp hgt)

/-- The reported top of the queue is a queued entry. -/
lemma zrevrangeTop_mem {q : List (Nat × Int)} {top : Nat × Int}
    (h : zrevrangeTop q = some top) : top ∈ q := by
  induction q generalizing top with
  | nil => simp [zrevrangeTop] at h
  | cons a rest ih =>
    simp only [zrevrangeTop] at h
    cases h2 : zrevrangeTop rest with
    | none =>
      rw [h2] at h
      simp at h
      subst h
      exact List.mem_cons_self _ _
    | some best =>
      rw [h2] at h
      by_cases hgt : a.2 < best.2
      · simp [hgt] at h
        subst h
        exact List.mem_cons_of_mem _ (ih h2)
      · simp [hgt] at h
        subst h
        exact List.mem_cons_self _ _

/-- C8: each loop iteration pops a queued job of maximal priority —
the popped entry is in the queue, its priority bounds every queued
priority, and the iteration removes exactly it before dispatching. -/
theorem priority_dispatch (s : ProcState) (id : Nat) (p : Int)
    (h : zrevrangeTop s.queue = some (id, p)) :
    (∀ e ∈ s.queue, e.2 ≤ p) ∧ (id, p) ∈ s.queue ∧
      processIteration s = processSingleJob { s with queue := zrem s.queue id } id := by
  refine ⟨?_, zrevrangeTop_mem h, ?_⟩
  · intro e he
    exact zrevrangeTop_max h e he
  · simp [processIteration, h]

/-- A state produced by submitting jobs with priorities 5 and then 1. -/
def demoTwoState : ProcState :=
  (runOps (initState [("profile", demoHandler)] 0)
    [Op.submit "profile" PyVal.pyNone 5, Op.submit "profile" PyVal.pyNone 1]).1

/-- Witness for C8: with exactly the priority-5 and priority-1 jobs
queued, the first iteration pops the priority-5 job (its priority
bounds the other entry) and the next top is the priority-1 job. -/
theorem priority_dispatch_witness :
    ((1 : Nat), (1 : Int)).2 ≤ (5 : Int) ∧
    ((0 : Nat), (5 : Int)) ∈ demoTwoState.queue ∧
    zrevrangeTop ((processIteration demoTwoState).1.queue) = some (1, 1) := by
  have htop : zrevrangeTop demoTwoState.queue = some (0, 5) := by decide
  have hspec := priority_dispatch demoTwoState 0 5 htop
  exact ⟨hspec.1 (1, 1) (by decide), hspec.2.1, by decide⟩

/-- The deletion test holds exactly for terminal records with a
parsable completion stamp strictly older than the cutoff. -/
lemma shouldCleanup_iff (cutoff : Int) (j : Job) :
    shouldCleanup cutoff j = true ↔
      (j.status.isTerminal = true ∧
        ∃ t, j.completedAt = some (TimeField.valid t) ∧ t < cutoff) := by
  unfold shouldCleanup
  cases hst : j.status
  case pending => simp [JobStatus.isTerminal]
  case running => simp [JobStatus.isTerminal]
  all_goals
    cases hca : j.completedAt with
    | none => simp [JobStatus.isTerminal]
    | some tf => cases tf <;> simp [JobStatus.isTerminal, fromIsoformat]

/-- C9: the retention sweep deletes exactly the records that are
terminal with a parsable completed_at strictly older than the cutoff;
PENDING and RUNNING records and records with a missing or unparsable
completed_at always survive, and no record is invented. -/
theorem cleanup_old_jobs_spec (s : ProcState) (maxAgeHours : Int) (id : Nat) (j : Job)
    (hmem : (id, j) ∈ s.jobs) :
    ((id, j) ∈ (cleanupOldJobs s maxAgeHours).1.jobs ↔
      ¬ (j.status.isTerminal = true ∧
        ∃ t, j.completedAt = some (TimeField.valid t) ∧ t < s.clock - maxAgeHours * 3600)) ∧
    (j.status = JobStatus.pending ∨ j.status = JobStatus.running →
      (id, j) ∈ (cleanupOldJobs s maxAgeHours).1.jobs) ∧
    (j.completedAt = none → (id, j) ∈ (cleanupOldJobs s maxAgeHours).1.jobs) ∧
    (∀ raw, j.completedAt = some (TimeField.invalid raw) →
      (id, j) ∈ (cleanupOldJobs s maxAgeHours).1.jobs) ∧
    (∀ e ∈ (cleanupOldJobs s maxAgeHours).1.jobs, e ∈ s.jobs) := by
  have hmain : (id, j) ∈ (cleanupOldJobs s maxAgeHours).1.jobs ↔
      ¬ (j.status.isTerminal = true ∧
        ∃ t, j.completedAt = some (TimeField.valid t) ∧ t < s.clock - maxAgeHours * 3600) := by
    simp only [cleanupOldJobs]
    rw [List.mem_filter]
    rw [← shouldCleanup_iff (s.clock - maxAgeHours * 3600) j]
    simp [hmem]
  refine ⟨hmain, ?_, ?_, ?_, ?_⟩
  · intro hpr
    rw [hmain]
    rintro ⟨hterm, -⟩
    cases hpr with
    | inl h => rw [h] at hterm; simp [JobStatus.isTerminal] at hterm
    | inr h => rw [h] at hterm; simp [JobStatus.isTerminal] at hterm
  · intro hca
    rw [hmain]
    rintro ⟨-, t, hct, -⟩
    rw [hca] at hct
    simp at hct
  · intro raw hca
    rw [hmain]
    rintro ⟨-, t, hct, -⟩
    rw [hca] at hct
    simp at hct
  · intro e he
    simp only [cleanupOldJobs] at he
    exact (List.mem_filter.mp he).1

/-- Witness for C9: the pending demonstration job survives the sweep. -/
theorem cleanup_old_jobs_spec_witness :
    (0, demoJob JobStatus.pending) ∈ (cleanupOldJobs demoPendingState 24).1.jobs :=
  (cleanup_old_jobs_spec demoPendingState 24 0 (demoJob JobStatus.pending)
    (List.mem_cons_self _ _)).2.1 (Or.inl rfl)

/-- Logical column types of the catalog (models.ColumnType). -/
inductive ColumnType where
  | string
  | integer
  | float
  | boolean
  | datetime
  | json
  | array
deriving DecidableEq, Repr

/-- Storage dtypes a pandas column can carry, as distinguished by the
pd.api.types.is_*_dtype tests in DataProcessor._infer_column_type.
dtOther stands for every dtype matching none of the five tests
(categorical, timedelta, ...), which fall through all the checks. -/
inductive Dtype where
  | dtDatetime
  | dtInt
  | dtFloat
  | dtBool
  | dtObject
  | dtOther
deriving DecidableEq, Repr

/-- An unnormalized decimal number num / 10^exp, the value of a parsed
numeric literal or a float cell. -/
structure Dec where
  num : Int
  exp : Nat
deriving DecidableEq, Repr

/-- One cell of a column: a null (None/NaN/NaT) or a typed value. -/
inductive Cell where
  | null
  | cint (n : Int)
  | cfloat (d : Dec)
  | cbool (b : Bool)
  | cdt (t : Int)
  | cstr (s : String)
deriving DecidableEq, Repr

/-- pandas isnull on one cell. -/
def Cell.isNull : Cell → Bool
  | .null => true
  | _ => false

/-- One pandas Series: a storage dtype and the cell values. -/
structure Series where
  dtype : Dtype
  values : List Cell
deriving Repr

/-- Numeric value of a digit list (most significant first). -/
def digitsVal (cs : List Char) : Nat :=
  cs.foldl (fun a c => a * 10 + (c.toNat - 48)) 0

/-- Split a character list on the dash separator. -/
def splitDash : List Char → List (List Char)
  | [] => [[]]
  | c :: cs =>
    let r := splitDash cs
    if c = '-' then [] :: r
    else
      match r with
      | [] => [[c]]
      | g :: gs => (c :: g) :: gs

/-- Modelling pd.to_datetime(_, errors=raise) on one string: an ISO
date YYYY-MM-DD parses to an abstract instant, anything else raises.
pandas is an external library; this parser follows the date/time
vocabulary the profiling engine is specified against. -/
def pdToDatetimeStr (s : String) : Option Int :=
  match splitDash s.data with
  | [ys, ms, ds] =>
    if ys.length = 4 ∧ ms.length = 2 ∧ ds.length = 2 ∧
        ys.all Char.isDigit ∧ ms.all Char.isDigit ∧ ds.all Char.isDigit ∧
        1 ≤ digitsVal ms ∧ digitsVal ms ≤ 12 ∧ 1 ≤ digitsVal ds ∧ digitsVal ds ≤ 31 then
      some (Int.ofNat (digitsVal ys * 10000 + digitsVal ms * 100 + digitsVal ds))
    else none
  | _ => none

/-- pd.to_datetime on one cell of an object column: strings go through
the string parser, datetime objects pass, other objects raise. -/
def pdToDatetimeCell : Cell → Option Int
  | .cstr s => pdToDatetimeStr s
  | .cdt t => some t
  | _ => none

/-- Modelling pd.to_numeric on one string: an optional sign, digits,
and an optional fractional part parse to a decimal value. -/
def pdToNumericStr (s : String) : Option Dec :=
  let core : List Char → Option Dec := fun cs =>
    let intPart := cs.takeWhile (fun c => !(c == '.'))
    let rest := cs.dropWhile (fun c => !(c == '.'))
    match rest with
    | [] =>
      if intPart ≠ [] ∧ intPart.all Char.isDigit then
        some { num := Int.ofNat (digitsVal intPart), exp := 0 }
      else none
    | _ :: frac =>
      if intPart ≠ [] ∧ intPart.all Char.isDigit ∧ frac.all Char.isDigit then
        some { num := Int.ofNat (digitsVal intPart * 10 ^ frac.length + digitsVal frac), exp := frac.length }
      else none
  match s.data with
  | '-' :: cs => (core cs).map (fun d => { d with num := -d.num })
  | '+' :: cs => core cs
  | cs => core cs

/-- pd.to_numeric on one cell: strings are parsed, ints, floats and
bools coerce, datetimes and nulls do not parse. -/
def pdToNumericCell : Cell → Option Dec
  | .cstr s => pdToNumericStr s
  | .cint n => some { num := n, exp := 0 }
  | .cfloat d => some d
  | .cbool b => some { num := if b then 1 else 0, exp := 0 }
  | _ => none

/-- The check numeric == numeric.astype(int) on one parsed value: the
decimal is exactly integral. -/
def decIsIntegral (d : Dec) : Bool :=
  d.num % (Int.ofNat (10 ^ d.exp)) == 0

/-- Comparison of decimal values by cross multiplication. -/
def decLe (a b : Dec) : Bool :=
  decide (a.num * Int.ofNat (10 ^ b.exp) ≤ b.num * Int.ofNat (10 ^ a.exp))

/-- Exact rational value of a decimal. -/
def decToRat (d : Dec) : Rat :=
  (d.num : Rat) / ((10 : Rat) ^ d.exp)

/-- Textual rendering of a decimal value, as str applied to a numpy
scalar. -/
def decRepr (d : Dec) : String :=
  toString d.num ++ "e-" ++ toString d.exp

/-- Lower-casing via per-character mapping, as str.lower. -/
def strLower (s : String) : String :=
  String.mk (s.data.map Char.toLower)

/-- str applied to one cell value, as Python renders it. -/
def cellPyStr : Cell → String
  | .null => "None"
  | .cint n => toString n
  | .cfloat d => decRepr d
  | .cbool b => if b then "True" else "False"
  | .cdt t => isoformat t
  | .cstr s => s

/-- series.astype(str) on one cell: pandas renders a missing value as
the string nan, other values as their str form. -/
def cellAstypeStr : Cell → String
  | .null => "nan"
  | c => cellPyStr c

/-- The fixed boolean-token vocabulary of _infer_column_type. -/
def boolVocab : List String :=
  ["true", "false", "1", "0", "yes", "no", "t", "f"]

/-- The bounded sample of _infer_column_type:
series.dropna().head(100). -/
def objectSample (values : List Cell) : List Cell :=
  (values.filter (fun c => !c.isNull)).take 100

/-- Content-based inference for an object column, over the bounded
sample: every value parses as date/time → DATETIME; else every value
parses as numeric → INTEGER when all parsed values are integral, else
FLOAT; else lower-cased stringified values within the boolean
vocabulary → BOOLEAN (the subset test over the value set equals the
test over the listed values); else STRING. -/
def inferFromSample (sample : List Cell) : ColumnType :=
  if sample.all (fun c => (pdToDatetimeCell c).isSome) then ColumnType.datetime
  else if sample.all (fun c => (pdToNumericCell c).isSome) then
    if sample.all (fun c =>
        match pdToNumericCell c with
        | some d => decIsIntegral d
        | none => true) then
      ColumnType.integer
    else ColumnType.float
  else if (sample.map (fun c => strLower (cellPyStr c))).all (fun v => boolVocab.contains v) then
    ColumnType.boolean
  else ColumnType.string

/-- DataProcessor._infer_column_type: native datetime, integer, float
and boolean dtypes map directly; object columns are inferred from the
sample; any other dtype matches none of the checks and reaches the
final return of STRING. -/
def inferColumnType (s : Series) : ColumnType :=
  match s.dtype with
  | .dtDatetime => ColumnType.datetime
  | .dtInt => ColumnType.integer
  | .dtFloat => ColumnType.float
  | .dtBool => ColumnType.boolean
  | .dtObject => inferFromSample (objectSample s.values)
  | .dtOther => ColumnType.string

/-- series.nunique(): distinct non-null values. -/
def nunique (values : List Cell) : Nat :=
  ((values.filter (fun c => !c.isNull)).dedup).length

/-- One ColumnMetadata record as built by _analyze_column. -/
structure ColMeta where
  columnName : String
  columnType : ColumnType
  isNullable : Bool
  isPrimaryKey : Bool
  isForeignKey : Bool
  nullCount : Nat
  uniqueCount : Nat
  minValue : Option String
  maxValue : Option String
  avgValue : Option Rat
deriving DecidableEq, Repr

/-- Minimum of a list under a boolean comparison. -/
def listMinBy : (α → α → Bool) → List α → Option α
  | _, [] => none
  | le, x :: xs =>
    match listMinBy le xs with
    | none => some x
    | some m => some (if le x m then x else m)

/-- Maximum of a list under a boolean comparison. -/
def listMaxBy (le : α → α → Bool) (xs : List α) : Option α :=
  listMinBy (fun a b => le b a) xs

/-- DataProcessor._analyze_column: infer the type, count nulls and
distinct values, and compute min/max/mean per type family — numeric
columns coerce the full column with failures as nulls and omit the
statistics when everything is null; STRING columns record bounds on
the stringified lengths; DATETIME columns record coerced bounds;
is_nullable is null_count > 0. -/
def analyzeColumn (name : String) (s : Series) : ColMeta :=
  let columnType := inferColumnType s
  let nullCount := (s.values.filter Cell.isNull).length
  let uniqueCount := nunique s.values
  let mkMeta : Option String → Option String → Option Rat → ColMeta := fun mn mx av =>
    { columnName := name, columnType := columnType, isNullable := decide (0 < nullCount),
      isPrimaryKey := false, isForeignKey := false, nullCount := nullCount,
      uniqueCount := uniqueCount, minValue := mn, maxValue := mx, avgValue := av }
  if columnType = ColumnType.integer ∨ columnType = ColumnType.float then
    let present := (s.values.map pdToNumericCell).filterMap id
    match listMinBy decLe present, listMaxBy decLe present with
    | some mn, some mx =>
      mkMeta (some (decRepr mn)) (some (decRepr mx))
        (some ((present.map decToRat).sum / (present.length : Rat)))
    | _, _ => mkMeta none none none
  else if columnType = ColumnType.string then
    let lengths := s.values.map (fun c => (cellAstypeStr c).length)
    mkMeta ((lengths.min?).map toString) ((lengths.max?).map toString) none
  else if columnType = ColumnType.datetime then
    let present := (s.values.map pdToDatetimeCell).filterMap id
    match present.min?, present.max? with
    | some mn, some mx => mkMeta (some (isoformat mn)) (some (isoformat mx)) none
    | _, _ => mkMeta none none none
  else mkMeta none none none

/-- C6: type inference on untyped columns is a function of the first
100 non-null values alone, and the cascade classifies the spec's five
example columns as INTEGER, FLOAT, BOOLEAN, DATETIME and STRING. -/
theorem infer_column_type_spec :
    (∀ s s2 : Series, s.dtype = Dtype.dtObject → s2.dtype = Dtype.dtObject →
      objectSample s.values = objectSample s2.values →
      inferColumnType s = inferColumnType s2) ∧
    inferColumnType ⟨Dtype.dtObject, [Cell.cstr "1", Cell.cstr "2", Cell.cstr "3"]⟩ =
      ColumnType.integer ∧
    inferColumnType ⟨Dtype.dtObject, [Cell.cstr "1.5", Cell.cstr "2.0"]⟩ =
      ColumnType.float ∧
    inferColumnType ⟨Dtype.dtObject, [Cell.cstr "true", Cell.cstr "false", Cell.cstr "yes"]⟩ =
      ColumnType.boolean ∧
    inferColumnType ⟨Dtype.dtObject, [Cell.cstr "2023-01-01", Cell.cstr "2023-01-02"]⟩ =
      ColumnType.datetime ∧
    inferColumnType ⟨Dtype.dtObject, [Cell.cstr "abc", Cell.cstr "def"]⟩ =
      ColumnType.string := by
  refine ⟨?_, by decide, by decide, by decide, by decide, by decide⟩
  intro s s2 h1 h2 hs
  simp [inferColumnType, h1, h2, hs]

/-- Witness for C6: two object columns differing only in null
placement share a sample, hence an inferred type. -/
theorem infer_column_type_spec_witness :
    inferColumnType ⟨Dtype.dtObject, [Cell.cstr "7", Cell.null]⟩ =
      inferColumnType ⟨Dtype.dtObject, [Cell.null, Cell.cstr "7"]⟩ :=
  infer_column_type_spec.1 _ _ rfl rfl (by decide)

/-- C10, amended: a nonempty fully-null column of datetime, integer,
float, boolean or object storage is profiled as nullable, with
null_count equal to the row count and min/max/mean all omitted,
whatever type the empty sample infers; a fully-null column of any
other storage dtype instead falls through to STRING and records
length-based bounds (see the counterexample). -/
theorem all_null_column_profile (name : String) (s : Series)
    (hno : s.dtype ≠ Dtype.dtOther)
    (hne : s.values ≠ []) (hall : ∀ c ∈ s.values, c = Cell.null) :
    (analyzeColumn name s).isNullable = true ∧
    (analyzeColumn name s).nullCount = s.values.length ∧
    (analyzeColumn name s).minValue = none ∧
    (analyzeColumn name s).maxValue = none ∧
    (analyzeColumn name s).avgValue = none := by
  have hfilter : s.values.filter Cell.isNull = s.values := by
    rw [List.filter_eq_self]
    intro a ha
    rw [hall a ha]
    rfl
  have hpos : 0 < s.values.length := List.length_pos.mpr hne
  have hnum : (s.values.map pdToNumericCell).filterMap id = [] := by
    rw [List.filterMap_eq_nil_iff]
    intro a ha
    rcases List.mem_map.mp ha with ⟨c, hc, hac⟩
    rw [← hac, hall c hc]
    rfl
  have hdt : (s.values.map pdToDatetimeCell).filterMap id = [] := by
    rw [List.filterMap_eq_nil_iff]
    intro a ha
    rcases List.mem_map.mp ha with ⟨c, hc, hac⟩
    rw [← hac, hall c hc]
    rfl
  have hsample : objectSample s.values = [] := by
    unfold objectSample
    have hf : s.values.filter (fun c => !c.isNull) = [] := by
      rw [List.filter_eq_nil_iff]
      intro a ha
      rw [hall a ha]
      simp [Cell.isNull]
    rw [hf]
    rfl
  cases hdty : s.dtype with
  | dtDatetime =>
    have hct : inferColumnType s = ColumnType.datetime := by
      simp [inferColumnType, hdty]
    refine ⟨?_, ?_, ?_, ?_, ?_⟩ <;>
      simp [analyzeColumn, hct, hdt, hfilter, hpos, listMinBy]
  | dtInt =>
    have hct : inferColumnType s = ColumnType.integer := by
      simp [inferColumnType, hdty]
    refine ⟨?_, ?_, ?_, ?_, ?_⟩ <;>
      simp [analyzeColumn, hct, hnum, hfilter, hpos, listMinBy]
  | dtFloat =>
    have hct : inferColumnType s = ColumnType.float := by
      simp [inferColumnType, hdty]
    refine ⟨?_, ?_, ?_, ?_, ?_⟩ <;>
      simp [analyzeColumn, hct, hnum, hfilter, hpos, listMinBy]
  | dtBool =>
    have hct : inferColumnType s = ColumnType.boolean := by
      simp [inferColumnType, hdty]
    refine ⟨?_, ?_, ?_, ?_, ?_⟩ <;>
      simp [analyzeColumn, hct, hfilter, hpos]
  | dtObject =>
    have hct : inferColumnType s = ColumnType.datetime := by
      simp [inferColumnType, hdty, hsample, inferFromSample]
    refine ⟨?_, ?_, ?_, ?_, ?_⟩ <;>
      simp [analyzeColumn, hct, hdt, hfilter, hpos, listMinBy]
  | dtOther => exact absurd hdty hno

/-- Counterexample for C10: a two-row fully-null column whose dtype
matches none of the five checks (a categorical column, say) falls to
the STRING default, and the profiler then records the three-character
length of the stringified nan values as min and max instead of
omitting them. -/
theorem all_null_column_profile_counterexample :
    (∀ c ∈ ([Cell.null, Cell.null] : List Cell), c = Cell.null) ∧
    (analyzeColumn "c" ⟨Dtype.dtOther, [Cell.null, Cell.null]⟩).isNullable = true ∧
    (analyzeColumn "c" ⟨Dtype.dtOther, [Cell.null, Cell.null]⟩).nullCount = 2 ∧
    (analyzeColumn "c" ⟨Dtype.dtOther, [Cell.null, Cell.null]⟩).minValue = some "3" ∧
    (analyzeColumn "c" ⟨Dtype.dtOther, [Cell.null, Cell.null]⟩).maxValue = some "3" := by
  refine ⟨?_, ?_, ?_, ?_, ?_⟩ <;> decide

/-- Witness for C10: a two-row fully-null object column. -/
theorem all_null_column_profile_witness :
    (analyzeColumn "c" ⟨Dtype.dtObject, [Cell.null, Cell.null]⟩).isNullable = true ∧
    (analyzeColumn "c" ⟨Dtype.dtObject, [Cell.null, Cell.null]⟩).nullCount = 2 ∧
    (analyzeColumn "c" ⟨Dtype.dtObject, [Cell.null, Cell.null]⟩).minValue = none ∧
    (analyzeColumn "c" ⟨Dtype.dtObject, [Cell.null, Cell.null]⟩).maxValue = none ∧
    (analyzeColumn "c" ⟨Dtype.dtObject, [Cell.null, Cell.null]⟩).avgValue = none :=
  all_null_column_profile "c" ⟨Dtype.dtObject, [Cell.null, Cell.null]⟩
    (by decide) (by decide) (by decide)

/-- One TableMetadata row of the relational catalog. -/
structure TableRec where
  schemaName : String
  tableName : String
  rowCount : Nat
  sizeBytes : Nat
  lastAnalyzed : Int
deriving DecidableEq, Repr

/-- One ColumnMetadata row: owned by a table id, carrying the column
profile. -/
structure ColRec where
  tableId : Nat
  meta : ColMeta
deriving DecidableEq, Repr

/-- The relational catalog: keyed table and column rows plus fresh-id
counters standing for generated uuids. -/
structure Catalog where
  tables : List (Nat × TableRec)
  cols : List (Nat × ColRec)
  nextTableId : Nat
  nextColId : Nat

/-- The output of DataProcessor._analyze_dataset: table counters plus
the per-column profiles. -/
structure AnalysisMeta where
  schemaName : String
  tableName : String
  rowCount : Nat
  sizeBytes : Nat
  lastAnalyzed : Int
  columns : List ColMeta

/-- The TableMetadata row holding the counters of an analysis. -/
def tableRecOf (m : AnalysisMeta) : TableRec :=
  { schemaName := m.schemaName, tableName := m.tableName, rowCount := m.rowCount,
    sizeBytes := m.sizeBytes, lastAnalyzed := m.lastAnalyzed }

/-- The WHERE clause of the upsert lookup: match on the
(schema_name, table_name) pair. -/
def pairMatch (sn tn : String) (e : Nat × TableRec) : Bool :=
  e.2.schemaName == sn && e.2.tableName == tn

/-- DataProcessor._store_table_metadata: look the pair up; update
row_count, size_bytes and last_analyzed of the found row in place, or
insert a new row with a fresh id; return the row id. -/
def storeTableMetadata (db : Catalog) (m : AnalysisMeta) : Nat × Catalog :=
  match db.tables.find? (pairMatch m.schemaName m.tableName) with
  | some entry =>
    let updated : TableRec :=
      { entry.2 with rowCount := m.rowCount, sizeBytes := m.sizeBytes, lastAnalyzed := m.lastAnalyzed }
    (entry.1,
     { db with tables := db.tables.map (fun e => if e.1 == entry.1 then (entry.1, updated) else e) })
  | none =>
    (db.nextTableId,
     { db with
        tables := db.tables ++ [(db.nextTableId, tableRecOf m)],
        nextTableId := db.nextTableId + 1 })

/-- Fresh ColumnMetadata rows for a table, ids drawn in order. -/
def mkColRecs (tid : Nat) : Nat → List ColMeta → List (Nat × ColRec)
  | _, [] => []
  | i, c :: rest => (i, { tableId := tid, meta := c }) :: mkColRecs tid (i + 1) rest

/-- DataProcessor._store_column_metadata: DELETE every column row
owned by the table id, then insert the full new set. -/
def storeColumnMetadata (db : Catalog) (tid : Nat) (columns : List ColMeta) : Catalog :=
  { db with
    cols := db.cols.filter (fun e => !(e.2.tableId == tid)) ++ mkColRecs tid db.nextColId columns,
    nextColId := db.nextColId + columns.length }

/-- The metadata write of process_dataset: upsert the table row, then
replace its column set, in one transaction. -/
def storeDataset (db : Catalog) (m : AnalysisMeta) : Nat × Catalog :=
  let r := storeTableMetadata db m
  (r.1, storeColumnMetadata r.2 r.1 m.columns)

/-- Catalog well-formedness: at most one table row per
(schema, table) pair (so scalar_one_or_none cannot raise), ids below
the freshness counter, and distinct table ids. -/
def CatalogWF (db : Catalog) : Prop :=
  (∀ e1 ∈ db.tables, ∀ e2 ∈ db.tables,
    e1.2.schemaName = e2.2.schemaName → e1.2.tableName = e2.2.tableName → e1 = e2) ∧
  (∀ e ∈ db.tables, e.1 < db.nextTableId) ∧
  db.tables.Pairwise (fun a b => a.1 ≠ b.1)

/-- A filter reduced to a singleton pins down the search result. -/
lemma find?_of_filter_singleton {α : Type} {p : α → Bool} {l : List α} {x : α}
    (h : l.filter p = [x]) : l.find? p = some x := by
  induction l with
  | nil => simp at h
  | cons a rest ih =>
    by_cases hp : p a
    · rw [List.filter_cons_of_pos hp] at h
      injection h with h1 h2
      rw [List.find?_cons_of_pos _ hp, h1]
    · rw [List.filter_cons_of_neg hp] at h
      rw [List.find?_cons_of_neg _ hp]
      exact ih h

/-- A unique match in a duplicate-free list filters to a singleton. -/
lemma filter_eq_singleton_of_unique {α : Type} {p : α → Bool} {l : List α} {x : α}
    (hmem : x ∈ l) (hx : p x = true)
    (huniq : ∀ e ∈ l, p e = true → e = x)
    (hnodup : l.Pairwise (fun a b => a ≠ b)) :
    l.filter p = [x] := by
  induction l with
  | nil => simp at hmem
  | cons a rest ih =>
    rcases List.pairwise_cons.mp hnodup with ⟨hane, htail⟩
    by_cases hpa : p a
    · have hax : a = x := huniq a (List.mem_cons_self a rest) hpa
      subst hax
      rw [List.filter_cons_of_pos hpa]
      have hrest : rest.filter p = [] := by
        rw [List.filter_eq_nil_iff]
        intro e he hpe
        have hea := huniq e (List.mem_cons_of_mem _ he) hpe
        exact (hane e he) hea.symm
      rw [hrest]
    · rw [List.filter_cons_of_neg hpa]
      apply ih ?_ ?_ htail
      · rcases List.mem_cons.mp hmem with hax | hxr
        · exact absurd (hax ▸ hx) hpa
        · exact hxr
      · intro e he hpe
        exact huniq e (List.mem_cons_of_mem _ he) hpe

/-- Membership after replacing the rows under one key. -/
lemma mem_map_replace {α : Type} {l : List (Nat × α)} {k : Nat} {r : α} {e : Nat × α}
    (h : e ∈ l.map (fun x => if x.1 == k then (k, r) else x)) :
    e = (k, r) ∨ (e ∈ l ∧ e.1 ≠ k) := by
  rcases List.mem_map.mp h with ⟨x, hx, hxe⟩
  by_cases hc : x.1 = k
  · left
    rw [← hxe]
    simp [hc]
  · right
    have hb : ¬ ((x.1 == k) = true) := by simpa using hc
    rw [← hxe, if_neg hb]
    exact ⟨hx, hc⟩

/-- Replacing the rows under the key of the unique match filters to
exactly the replacement. -/
lemma filter_map_replace_key {l : List (Nat × TableRec)} {p : Nat × TableRec → Bool}
    {entry : Nat × TableRec} {rec2 : TableRec}
    (hkeys : l.Pairwise (fun a b => a.1 ≠ b.1))
    (hmem : entry ∈ l)
    (hmatch : ∀ e ∈ l, p e = true ↔ e = entry)
    (hrec2 : p (entry.1, rec2) = true) :
    (l.map (fun e => if e.1 == entry.1 then (entry.1, rec2) else e)).filter p
      = [(entry.1, rec2)] := by
  induction l with
  | nil => simp at hmem
  | cons a rest ih =>
    rcases List.pairwise_cons.mp hkeys with ⟨hane, htail⟩
    rcases List.mem_cons.mp hmem with hax | hxr
    · subst hax
      simp only [List.map_cons, beq_self_eq_true, if_true]
      rw [List.filter_cons_of_pos hrec2]
      have hmap : rest.map (fun e => if e.1 == entry.1 then (entry.1, rec2) else e)
          = rest.map id := by
        apply List.map_congr_left
        intro e he
        have hne : ¬ ((e.1 == entry.1) = true) := by
          simp
          exact fun hc => (hane e he) hc.symm
        rw [if_neg hne]
        rfl
      have hfrest : rest.filter p = [] := by
        rw [List.filter_eq_nil_iff]
        intro e he hpe
        have hee := (hmatch e (List.mem_cons_of_mem _ he)).mp hpe
        exact (hane e he) (congrArg Prod.fst hee).symm
      rw [hmap, List.map_id, hfrest]
    · have hak : ¬ ((a.1 == entry.1) = true) := by
        simp
        exact hane entry hxr
      have hpa : ¬ (p a = true) := by
        intro hpe
        have hae := (hmatch a (List.mem_cons_self _ _)).mp hpe
        exact hak (by rw [hae]; simp)
      simp only [List.map_cons]
      rw [if_neg hak, List.filter_cons_of_neg hpa]
      exact ih htail hxr (fun e he => hmatch e (List.mem_cons_of_mem _ he))

/-- Distinct keys force equality of rows sharing a key. -/
lemma eq_of_key_eq {l : List (Nat × TableRec)}
    (hp : l.Pairwise (fun a b => a.1 ≠ b.1))
    {e1 e2 : Nat × TableRec} (h1 : e1 ∈ l) (h2 : e2 ∈ l) (hk : e1.1 = e2.1) :
    e1 = e2 := by
  induction l with
  | nil => simp at h1
  | cons a rest ih =>
    rcases List.pairwise_cons.mp hp with ⟨hane, htail⟩
    rcases List.mem_cons.mp h1 with ha1 | hr1 <;> rcases List.mem_cons.mp h2 with ha2 | hr2
    · rw [ha1, ha2]
    · exfalso
      subst ha1
      exact (hane e2 hr2) hk
    · exfalso
      subst ha2
      exact (hane e1 hr1) hk.symm
    · exact ih htail hr1 hr2

/-- The new column rows carry exactly the supplied profiles. -/
lemma mkColRecs_map_meta (tid : Nat) (cs : List ColMeta) :
    ∀ i : Nat, (mkColRecs tid i cs).map (fun e => e.2.meta) = cs := by
  induction cs with
  | nil => intro i; rfl
  | cons c rest ih =>
    intro i
    simp only [mkColRecs, List.map_cons, ih]

/-- Every new column row is owned by the given table. -/
lemma mkColRecs_tid (tid : Nat) (cs : List ColMeta) :
    ∀ i : Nat, ∀ e ∈ mkColRecs tid i cs, e.2.tableId = tid := by
  induction cs with
  | nil => intro i e he; simp [mkColRecs] at he
  | cons c rest ih =>
    intro i e he
    rcases List.mem_cons.mp he with h1 | h2
    · rw [h1]
    · exact ih (i + 1) e h2

/-- After a column replacement, the rows owned by the table are
exactly the freshly inserted set. -/
lemma storeColumnMetadata_cols_filter (db : Catalog) (tid : Nat) (cs : List ColMeta) :
    (storeColumnMetadata db tid cs).cols.filter (fun e => e.2.tableId == tid)
      = mkColRecs tid db.nextColId cs := by
  unfold storeColumnMetadata
  rw [List.filter_append]
  have h1 : (db.cols.filter (fun e => !(e.2.tableId == tid))).filter
      (fun e => e.2.tableId == tid) = [] := by
    rw [List.filter_eq_nil_iff]
    intro e he
    have hh := (List.mem_filter.mp he).2
    simp at hh ⊢
    exact hh
  have h2 : (mkColRecs tid db.nextColId cs).filter (fun e => e.2.tableId == tid)
      = mkColRecs tid db.nextColId cs := by
    rw [List.filter_eq_self]
    intro e he
    simp [mkColRecs_tid tid cs db.nextColId e he]
  rw [h1, h2, List.nil_append]

/-- Replacing the table rows under a key with a row of the same
(schema, table) pair preserves catalog well-formedness. -/
lemma catalogWF_map_replace {db : Catalog} {entry : Nat × TableRec} {rec2 : TableRec}
    (hwf : CatalogWF db) (hmem : entry ∈ db.tables)
    (hsn : rec2.schemaName = entry.2.schemaName)
    (htn : rec2.tableName = entry.2.tableName) :
    CatalogWF { db with
      tables := db.tables.map (fun e => if e.1 == entry.1 then (entry.1, rec2) else e) } := by
  obtain ⟨hpair, hfresh, hkeys⟩ := hwf
  refine ⟨?_, ?_, ?_⟩
  · intro e1 h1 e2 h2 hs2 ht2
    rcases mem_map_replace h1 with he1 | ⟨he1, hk1⟩ <;>
      rcases mem_map_replace h2 with he2 | ⟨he2, hk2⟩
    · rw [he1, he2]
    · exfalso
      apply hk2
      have hp2 : e2 = entry := by
        apply hpair e2 he2 entry hmem
        · calc e2.2.schemaName = e1.2.schemaName := hs2.symm
            _ = rec2.schemaName := by rw [he1]
            _ = entry.2.schemaName := hsn
        · calc e2.2.tableName = e1.2.tableName := ht2.symm
            _ = rec2.tableName := by rw [he1]
            _ = entry.2.tableName := htn
      rw [hp2]
    · exfalso
      apply hk1
      have hp1 : e1 = entry := by
        apply hpair e1 he1 entry hmem
        · calc e1.2.schemaName = e2.2.schemaName := hs2
            _ = rec2.schemaName := by rw [he2]
            _ = entry.2.schemaName := hsn
        · calc e1.2.tableName = e2.2.tableName := ht2
            _ = rec2.tableName := by rw [he2]
            _ = entry.2.tableName := htn
      rw [hp1]
    · exact hpair e1 he1 e2 he2 hs2 ht2
  · intro e he
    rcases mem_map_replace he with he1 | ⟨he1, _⟩
    · rw [he1]
      exact hfresh entry hmem
    · exact hfresh e he1
  · rw [List.pairwise_map]
    have hkey : ∀ x : Nat × TableRec,
        ((if x.1 == entry.1 then ((entry.1, rec2) : Nat × TableRec) else x) : Nat × TableRec).1
          = x.1 := by
      intro x
      by_cases hc : x.1 = entry.1
      · simp [hc]
      · rw [if_neg (by simpa using hc)]
    apply List.Pairwise.imp ?_ hkeys
    intro a b hab
    rw [hkey a, hkey b]
    exact hab

/-- The upsert leaves a well-formed catalog whose unique
(schema, table) match is the returned id paired with the analysis
counters. -/
lemma storeTableMetadata_spec (db : Catalog) (m : AnalysisMeta) (hwf : CatalogWF db) :
    CatalogWF (storeTableMetadata db m).2 ∧
    (storeTableMetadata db m).2.tables.filter (pairMatch m.schemaName m.tableName)
      = [((storeTableMetadata db m).1, tableRecOf m)] := by
  obtain ⟨hpair, hfresh, hkeys⟩ := hwf
  cases hfind : db.tables.find? (pairMatch m.schemaName m.tableName) with
  | none =>
    have hnone : ∀ e ∈ db.tables, ¬ (pairMatch m.schemaName m.tableName e = true) :=
      List.find?_eq_none.mp hfind
    simp only [storeTableMetadata, hfind]
    constructor
    · refine ⟨?_, ?_, ?_⟩
      · intro e1 h1 e2 h2 hsn htn
        rw [List.mem_append] at h1 h2
        rcases h1 with h1 | h1 <;> rcases h2 with h2 | h2
        · exact hpair e1 h1 e2 h2 hsn htn
        · exfalso
          simp at h2
          apply hnone e1 h1
          rw [h2] at hsn htn
          simp [tableRecOf] at hsn htn
          simp [pairMatch, hsn, htn]
        · exfalso
          simp at h1
          apply hnone e2 h2
          rw [h1] at hsn htn
          simp [tableRecOf] at hsn htn
          simp [pairMatch, ← hsn, ← htn]
        · simp at h1 h2
          rw [h1, h2]
      · intro e he
        rw [List.mem_append] at he
        rcases he with he | he
        · exact Nat.lt_succ_of_lt (hfresh e he)
        · simp at he
          rw [he]
          exact Nat.lt_succ_self _
      · rw [List.pairwise_append]
        refine ⟨hkeys, by simp, ?_⟩
        intro a ha b hb
        simp at hb
        rw [hb]
        exact Nat.ne_of_lt (hfresh a ha)
    · rw [List.filter_append]
      have h1 : db.tables.filter (pairMatch m.schemaName m.tableName) = [] := by
        rw [List.filter_eq_nil_iff]
        exact hnone
      have h2 : [((db.nextTableId, tableRecOf m) : Nat × TableRec)].filter
          (pairMatch m.schemaName m.tableName) = [(db.nextTableId, tableRecOf m)] := by
        rw [List.filter_eq_self]
        intro e he
        simp at he
        rw [he]
        simp [pairMatch, tableRecOf]
      rw [h1, h2, List.nil_append]
  | some entry =>
    have hmem : entry ∈ db.tables := List.mem_of_find?_eq_some hfind
    have hpm : pairMatch m.schemaName m.tableName entry = true := List.find?_some hfind
    have hsn : entry.2.schemaName = m.schemaName := by
      have hh := hpm
      simp [pairMatch] at hh
      exact hh.1
    have htn : entry.2.tableName = m.tableName := by
      have hh := hpm
      simp [pairMatch] at hh
      exact hh.2
    have hupd : ({ entry.2 with rowCount := m.rowCount, sizeBytes := m.sizeBytes, lastAnalyzed := m.lastAnalyzed } : TableRec) = tableRecOf m := by
      simp [tableRecOf, hsn, htn]
    have hmatch : ∀ e ∈ db.tables,
        pairMatch m.schemaName m.tableName e = true ↔ e = entry := by
      intro e he
      constructor
      · intro hpe
        simp [pairMatch] at hpe
        exact hpair e he entry hmem (by rw [hpe.1, hsn]) (by rw [hpe.2, htn])
      · intro hee
        rw [hee]
        exact hpm
    simp only [storeTableMetadata, hfind]
    constructor
    · exact catalogWF_map_replace ⟨hpair, hfresh, hkeys⟩ hmem rfl rfl
    · have hrec2 : pairMatch m.schemaName m.tableName
          (entry.1, { entry.2 with rowCount := m.rowCount, sizeBytes := m.sizeBytes, lastAnalyzed := m.lastAnalyzed }) = true := by
        simp [pairMatch, hsn, htn]
      rw [filter_map_replace_key hkeys hmem hmatch hrec2, hupd]

/-- Replacing columns does not touch the table rows. -/
lemma storeColumnMetadata_tables (db : Catalog) (tid : Nat) (cs : List ColMeta) :
    (storeColumnMetadata db tid cs).tables = db.tables := rfl

/-- C7: profiling the same (schema, table) pair twice leaves exactly
one table row for the pair — the second run updates row_count,
size_bytes and last_analyzed in place under the same id — and the
column rows owned by that table afterwards are exactly the second
profiling's output, never a merge with the first. -/
theorem reprofile_replaces (db : Catalog) (m1 m2 : AnalysisMeta) (hwf : CatalogWF db)
    (hs : m1.schemaName = m2.schemaName) (ht : m1.tableName = m2.tableName) :
    (storeDataset (storeDataset db m1).2 m2).1 = (storeDataset db m1).1 ∧
    (storeDataset (storeDataset db m1).2 m2).2.tables.filter
        (pairMatch m2.schemaName m2.tableName)
      = [((storeDataset db m1).1, tableRecOf m2)] ∧
    (∀ e ∈ (storeDataset (storeDataset db m1).2 m2).2.tables,
      e.1 = (storeDataset db m1).1 →
        e.2.rowCount = m2.rowCount ∧ e.2.sizeBytes = m2.sizeBytes ∧
          e.2.lastAnalyzed = m2.lastAnalyzed) ∧
    ((storeDataset (storeDataset db m1).2 m2).2.cols.filter
        (fun e => e.2.tableId == (storeDataset db m1).1)).map (fun e => e.2.meta)
      = m2.columns := by
  obtain ⟨hwf1, hflt1⟩ := storeTableMetadata_spec db m1 hwf
  have hwfr1 : CatalogWF (storeDataset db m1).2 := hwf1
  have hflt1b : (storeDataset db m1).2.tables.filter (pairMatch m2.schemaName m2.tableName)
      = [((storeDataset db m1).1, tableRecOf m1)] := by
    have hteq : (storeDataset db m1).2.tables = (storeTableMetadata db m1).2.tables := rfl
    rw [hteq, ← hs, ← ht]
    exact hflt1
  have hfind2 : (storeDataset db m1).2.tables.find? (pairMatch m2.schemaName m2.tableName)
      = some ((storeDataset db m1).1, tableRecOf m1) := find?_of_filter_singleton hflt1b
  obtain ⟨hwf2, hflt2⟩ := storeTableMetadata_spec (storeDataset db m1).2 m2 hwfr1
  have hid2 : (storeTableMetadata (storeDataset db m1).2 m2).1 = (storeDataset db m1).1 := by
    simp only [storeTableMetadata, hfind2]
  have hfin : (storeDataset (storeDataset db m1).2 m2).2.tables.filter
      (pairMatch m2.schemaName m2.tableName)
      = [((storeDataset db m1).1, tableRecOf m2)] := by
    have hteq : (storeDataset (storeDataset db m1).2 m2).2.tables
        = (storeTableMetadata (storeDataset db m1).2 m2).2.tables := rfl
    rw [hteq, hflt2, hid2]
  refine ⟨hid2, hfin, ?_, ?_⟩
  · intro e he hke
    have hx : (((storeDataset db m1).1, tableRecOf m2) : Nat × TableRec) ∈
        (storeDataset (storeDataset db m1).2 m2).2.tables :=
      List.mem_of_mem_filter (by rw [hfin]; exact List.mem_cons_self _ _)
    have hkeys2 : (storeDataset (storeDataset db m1).2 m2).2.tables.Pairwise
        (fun a b => a.1 ≠ b.1) := hwf2.2.2
    have hee := eq_of_key_eq hkeys2 he hx (by rw [hke])
    rw [hee]
    exact ⟨rfl, rfl, rfl⟩
  · have hunfold : (storeDataset (storeDataset db m1).2 m2).2
        = storeColumnMetadata (storeTableMetadata (storeDataset db m1).2 m2).2
            (storeTableMetadata (storeDataset db m1).2 m2).1 m2.columns := rfl
    rw [hunfold, ← hid2, storeColumnMetadata_cols_filter, mkColRecs_map_meta]

/-- A fixed column profile used by the catalog witness. -/
def demoColMeta (n : String) : ColMeta :=
  { columnName := n, columnType := ColumnType.integer, isNullable := false,
    isPrimaryKey := false, isForeignKey := false, nullCount := 0, uniqueCount := 1,
    minValue := none, maxValue := none, avgValue := none }

/-- An empty catalog. -/
def demoDb : Catalog :=
  { tables := [], cols := [], nextTableId := 0, nextColId := 0 }

/-- First profiling run of the witness pair. -/
def demoMeta1 : AnalysisMeta :=
  { schemaName := "s", tableName := "t", rowCount := 1, sizeBytes := 10,
    lastAnalyzed := 1, columns := [demoColMeta "a"] }

/-- Second profiling run of the witness pair. -/
def demoMeta2 : AnalysisMeta :=
  { schemaName := "s", tableName := "t", rowCount := 2, sizeBytes := 20,
    lastAnalyzed := 2, columns := [demoColMeta "b"] }

/-- Witness for C7: profiling the same pair twice into an empty
catalog leaves one matching table row with the second counters and
exactly the second column set. -/
theorem reprofile_replaces_witness :
    (storeDataset (storeDataset demoDb demoMeta1).2 demoMeta2).1
      = (storeDataset demoDb demoMeta1).1 ∧
    (storeDataset (storeDataset demoDb demoMeta1).2 demoMeta2).2.tables.filter
        (pairMatch demoMeta2.schemaName demoMeta2.tableName)
      = [((storeDataset demoDb demoMeta1).1, tableRecOf demoMeta2)] ∧
    (∀ e ∈ (storeDataset (storeDataset demoDb demoMeta1).2 demoMeta2).2.tables,
      e.1 = (storeDataset demoDb demoMeta1).1 →
        e.2.rowCount = demoMeta2.rowCount ∧ e.2.sizeBytes = demoMeta2.sizeBytes ∧
          e.2.lastAnalyzed = demoMeta2.lastAnalyzed) ∧
    ((storeDataset (storeDataset demoDb demoMeta1).2 demoMeta2).2.cols.filter
        (fun e => e.2.tableId == (storeDataset demoDb demoMeta1).1)).map
      (fun e => e.2.meta) = demoMeta2.columns :=
  reprofile_replaces demoDb demoMeta1 demoMeta2
    ⟨by simp [demoDb], by simp [demoDb], by simp [demoDb]⟩ rfl rfl

/-- An in-memory pandas DataFrame: its row count and named columns. -/
structure DataFrameModel where
  nrows : Nat
  cols : List (String × Series)

/-- df.memory_usage(deep=True).sum(), modelled as the total cell
count of the frame. -/
def memoryUsageDeep (df : DataFrameModel) : Nat :=
  df.cols.foldl (fun a e => a + e.2.values.length) 0

/-- DataProcessor._analyze_dataset: table counters plus the profile of
every column. -/
def analyzeDataset (df : DataFrameModel) (schemaName tableName : String) (now : Int) :
    AnalysisMeta :=
  { schemaName := schemaName, tableName := tableName, rowCount := df.nrows,
    sizeBytes := memoryUsageDeep df, lastAnalyzed := now,
    columns := df.cols.map (fun e => analyzeColumn e.1 e.2) }

/-- The environment process_dataset runs against: the file source (a
read either yields a frame or raises with a message), a possible
analysis failure, a possible database failure, the catalog, and the
wall clock. -/
structure DPEnv where
  readDataset : String → Except String DataFrameModel
  analyzeFail : Option String
  dbFail : Option String
  db : Catalog
  now : Int

/-- The error mapping process_dataset returns from its except branch. -/
def errDict (e : String) : PyVal :=
  PyVal.pyDict [("status", PyVal.pyStr "error"), ("error", PyVal.pyStr e)]

/-- The str value of a ColumnType enum member. -/
def columnTypeValue : ColumnType → String
  | .string => "string"
  | .integer => "integer"
  | .float => "float"
  | .boolean => "boolean"
  | .datetime => "datetime"
  | .json => "json"
  | .array => "array"

/-- An optional string as a Python value. -/
def optStrToPy : Option String → PyVal
  | some s => PyVal.pyStr s
  | none => PyVal.pyNone

/-- One column profile as the dict _analyze_column returns. -/
def colMetaToPyVal (c : ColMeta) : PyVal :=
  PyVal.pyDict [
    ("column_name", PyVal.pyStr c.columnName),
    ("column_type", PyVal.pyStr (columnTypeValue c.columnType)),
    ("is_nullable", PyVal.pyBool c.isNullable),
    ("is_primary_key", PyVal.pyBool c.isPrimaryKey),
    ("is_foreign_key", PyVal.pyBool c.isForeignKey),
    ("null_count", PyVal.pyInt (Int.ofNat c.nullCount)),
    ("unique_count", PyVal.pyInt (Int.ofNat c.uniqueCount)),
    ("min_value", optStrToPy c.minValue),
    ("max_value", optStrToPy c.maxValue),
    ("avg_value", match c.avgValue with | some q => PyVal.pyFloat q | none => PyVal.pyNone)]

/-- The analysis output as the metadata dict of the success mapping. -/
def metaToPyVal (m : AnalysisMeta) : PyVal :=
  PyVal.pyDict [
    ("schema_name", PyVal.pyStr m.schemaName),
    ("table_name", PyVal.pyStr m.tableName),
    ("table_type", PyVal.pyStr "table"),
    ("row_count", PyVal.pyInt (Int.ofNat m.rowCount)),
    ("size_bytes", PyVal.npInt (Int.ofNat m.sizeBytes)),
    ("last_analyzed", PyVal.pyDatetime m.lastAnalyzed),
    ("columns", PyVal.pyList (m.columns.map colMetaToPyVal))]

/-- The success mapping process_dataset returns. -/
def successDict (tid : Nat) (rows : Nat) (ncols : Nat) (m : AnalysisMeta) : PyVal :=
  PyVal.pyDict [
    ("status", PyVal.pyStr "success"),
    ("table_id", PyVal.pyStr (toString tid)),
    ("rows_processed", PyVal.pyInt (Int.ofNat rows)),
    ("columns_analyzed", PyVal.pyInt (Int.ofNat ncols)),
    ("metadata", metaToPyVal m)]

/-- DataProcessor.process_dataset: read, analyze and store; any
exception raised on the way is caught and mapped to the error dict, so
the call always returns a mapping and the catalog is only committed on
success. -/
def processDataset (env : DPEnv) (filePath schemaName tableName : String) :
    PyVal × Catalog :=
  match env.readDataset filePath with
  | .error e => (errDict e, env.db)
  | .ok df =>
    match env.analyzeFail with
    | some e => (errDict e, env.db)
    | none =>
      let m := analyzeDataset df schemaName tableName env.now
      match env.dbFail with
      | some e => (errDict e, env.db)
      | none =>
        let r := storeDataset env.db m
        (successDict r.1 df.nrows m.columns.length m, r.2)

/-- Dictionary field access, job_data[key]. -/
def pyDictGet (v : PyVal) (k : String) : Option PyVal :=
  match v with
  | .pyDict kvs => (kvs.find? (fun e => e.1 == k)).map (fun e => e.2)
  | _ => none

/-- job_data.get(key, default) for string fields. -/
def pyStrOrDefault (v : Option PyVal) (d : String) : String :=
  match v with
  | some (.pyStr s) => s
  | _ => d

/-- process_dataset_handler of the data_processing router: extract
file_path (KeyError raises), default schema and table names, call
process_dataset and return its mapping. -/
def processDatasetHandler (env : DPEnv) : Handler := fun _jid jobData =>
  match pyDictGet jobData "file_path" with
  | some (.pyStr fp) =>
    let schemaName := pyStrOrDefault (pyDictGet jobData "schema_name") "nyc_taxi"
    let tableName := pyStrOrDefault (pyDictGet jobData "table_name") "yellow_taxi_trips"
    HandlerOutcome.ok (processDataset env fp schemaName tableName).1
  | _ => HandlerOutcome.raised "KeyError: file_path"

/-- C2: process_dataset never raises — a read failure, an analysis
failure or a database failure each yield the error mapping, every
run returns a mapping whose status is success or error with the error
text — and consequently a dataset job whose profiling fails is
recorded COMPLETED by the dispatcher with the error inside its result
field. -/
theorem process_dataset_reports_errors (env : DPEnv) (fp sn tn : String) :
    (∀ e, env.readDataset fp = Except.error e →
      (processDataset env fp sn tn).1 = errDict e) ∧
    (∀ df e, env.readDataset fp = Except.ok df → env.analyzeFail = some e →
      (processDataset env fp sn tn).1 = errDict e) ∧
    (∀ df e, env.readDataset fp = Except.ok df → env.analyzeFail = none →
      env.dbFail = some e → (processDataset env fp sn tn).1 = errDict e) ∧
    (pyDictGet (processDataset env fp sn tn).1 "status" = some (PyVal.pyStr "success") ∨
      ∃ e, pyDictGet (processDataset env fp sn tn).1 "status" = some (PyVal.pyStr "error") ∧
        pyDictGet (processDataset env fp sn tn).1 "error" = some (PyVal.pyStr e)) ∧
    (∀ s id j e, getJobStatus s id = some j → j.status = JobStatus.pending →
      lookupHandler s j.jobType = some (processDatasetHandler env) →
      pyDictGet j.jobData "file_path" = some (PyVal.pyStr fp) →
      env.readDataset fp = Except.error e →
      ∃ j2, getJobStatus (processSingleJob s id).1 id = some j2 ∧
        j2.status = JobStatus.completed ∧
        j2.result = some (JVal.jobj [("status", JVal.jstr "error"), ("error", JVal.jstr e)])) := by
  refine ⟨?_, ?_, ?_, ?_, ?_⟩
  · intro e hre
    simp [processDataset, hre]
  · intro df e hre haf
    simp [processDataset, hre, haf]
  · intro df e hre haf hdf
    simp [processDataset, hre, haf, hdf]
  · cases hre : env.readDataset fp with
    | error e =>
      right
      exact ⟨e, by simp [processDataset, hre, errDict, pyDictGet],
        by simp [processDataset, hre, errDict, pyDictGet]⟩
    | ok df =>
      cases haf : env.analyzeFail with
      | some e =>
        right
        exact ⟨e, by simp [processDataset, hre, haf, errDict, pyDictGet],
          by simp [processDataset, hre, haf, errDict, pyDictGet]⟩
      | none =>
        cases hdf : env.dbFail with
        | some e =>
          right
          exact ⟨e, by simp [processDataset, hre, haf, hdf, errDict, pyDictGet],
            by simp [processDataset, hre, haf, hdf, errDict, pyDictGet]⟩
        | none =>
          left
          simp [processDataset, hre, haf, hdf, successDict, pyDictGet]
  · intro s id j e hl hp hh hfp hre
    have hout : processDatasetHandler env id j.jobData = HandlerOutcome.ok (errDict e) := by
      simp only [processDatasetHandler, hfp]
      simp [processDataset, hre]
    have hser : jsonSerialize (errDict e) =
        some (JVal.jobj [("status", JVal.jstr "error"), ("error", JVal.jstr e)]) := rfl
    rw [getJobStatus] at hl
    have hrec := processSingleJob_ok s id j (processDatasetHandler env) (errDict e) _
      hl hp hh hout hser
    exact ⟨_, hrec, rfl, rfl⟩

/-- An environment whose file source always fails. -/
def demoFailEnv : DPEnv :=
  { readDataset := fun _ => Except.error "Dataset file not found: upload.csv",
    analyzeFail := none, dbFail := none, db := demoDb, now := 0 }

/-- Payload of the witness dataset job. -/
def demoJobData : PyVal := PyVal.pyDict [("file_path", PyVal.pyStr "upload.csv")]

/-- A state holding one pending dataset job wired to the failing
environment. -/
def demoDPState : ProcState :=
  { jobs := [(0,
      { jobType := "process_dataset", jobData := demoJobData, status := JobStatus.pending,
        priority := 0, createdAt := 0, startedAt := none, completedAt := none,
        result := none, error := none, trace := none, progress := 0, message := none })],
    queue := [], handlers := [("process_dataset", processDatasetHandler demoFailEnv)],
    nextId := 1, clock := 3 }

/-- Witness for C2: with a missing dataset file, process_dataset
returns the error mapping and the dispatcher records the job
COMPLETED with the error buried in its result. -/
theorem process_dataset_reports_errors_witness :
    (processDataset demoFailEnv "upload.csv" "s" "t").1
      = errDict "Dataset file not found: upload.csv" ∧
    ∃ j2, getJobStatus (processSingleJob demoDPState 0).1 0 = some j2 ∧
      j2.status = JobStatus.completed ∧
      j2.result = some (JVal.jobj [("status", JVal.jstr "error"),
        ("error", JVal.jstr "Dataset file not found: upload.csv")]) := by
  have hspec := process_dataset_reports_errors demoFailEnv "upload.csv" "s" "t"
  refine ⟨hspec.1 _ rfl, ?_⟩
  exact hspec.2.2.2.2 demoDPState 0 _ "Dataset file not found: upload.csv" rfl rfl rfl rfl rfl

end MetaScope
